import Mathlib

/-!
Verification of the MrUndercoverBot game engine (src/models/game.py, src/models/player.py,
src/models/enums.py, with the vote handler in src/handlers/game_handlers.py).

The Python engine is shallowly embedded: the `Game` class becomes a `Game` structure,
mutating methods become functions `Game → ... → Game` (paired with their return value),
and the mutually recursive pair `next_turn` / `get_current_player_id` is given an explicit
fuel parameter (a `none` result means the recursion did not finish within the given fuel).
Randomness (`random.choice`, `random.shuffle`) is modelled by passing the drawn values as
parameters; theorems hypothesise that they lie in the sampled sets.
-/

/-- Role enum from src/models/enums.py. -/
inductive Role where
  | civilian
  | undercover
  | mrWhite
deriving DecidableEq, Repr

/-- GameState enum from src/models/enums.py. -/
inductive GameState where
  | waitingForPlayers
  | playing
  | voting
  | gameOver
  | mrWhiteGuessing
deriving DecidableEq, Repr

/-- Player from src/models/player.py: per-player mutable state. -/
structure Player where
  userId : Nat
  username : String
  firstName : String
  role : Option Role := none
  word : Option String := none
  hasSpoken : Bool := false
  hasVoted : Bool := false
  voteTarget : Option Nat := none
  eliminated : Bool := false
  description : Option String := none
deriving DecidableEq, Repr

/-- The settings dictionary initialised in Game.__init__ (src/models/game.py). -/
structure Settings where
  mrWhiteStart : Bool := false
  tiebreaker : String := "random"
  civilianCount : Nat := 0
  undercoverCount : Nat := 0
  mrWhiteCount : Nat := 0
deriving DecidableEq, Repr

/-- One entry of SOCCER_PLAYER_PAIRS (config.py): a civilian word and an undercover word. -/
structure WordPair where
  civilian : String
  undercover : String
deriving DecidableEq, Repr

/-- Game from src/models/game.py.  The Python `players` dict (insertion ordered,
keyed by user id) is modelled as a list of players in insertion order; the
user id key is the `userId` field of each entry. -/
structure Game where
  chatId : Int
  creatorId : Nat
  state : GameState := GameState.waitingForPlayers
  players : List Player := []
  turnOrder : List Nat := []
  currentTurnIdx : Nat := 0
  civilianWord : Option String := none
  undercoverWord : Option String := none
  roundNumber : Nat := 0
  settings : Settings := {}
deriving DecidableEq, Repr

/-- Dictionary lookup `self.players[uid]` (first entry with the given id). -/
def Game.findPlayer (g : Game) (uid : Nat) : Option Player :=
  g.players.find? (fun p => p.userId == uid)

/-- Membership test `uid in self.players`. -/
def Game.hasPlayer (g : Game) (uid : Nat) : Bool :=
  g.players.any (fun p => p.userId == uid)

/-- In-place mutation of the entry `self.players[uid]`. -/
def Game.updatePlayer (g : Game) (uid : Nat) (f : Player → Player) : Game :=
  { g with players := g.players.map (fun p => if p.userId == uid then f p else p) }

/-- Reads `self.players[uid].eliminated`. -/
def Game.isElim (g : Game) (uid : Nat) : Bool :=
  ((g.findPlayer uid).map Player.eliminated).getD false

/-- Reads `self.players[uid].has_spoken`. -/
def Game.spokenOf (g : Game) (uid : Nat) : Bool :=
  ((g.findPlayer uid).map Player.hasSpoken).getD false

/-- Reads `self.players[uid].has_voted`. -/
def Game.votedOf (g : Game) (uid : Nat) : Bool :=
  ((g.findPlayer uid).map Player.hasVoted).getD false

/-- Reads `self.players[uid].role`. -/
def Game.roleOf (g : Game) (uid : Nat) : Option Role :=
  (g.findPlayer uid).bind Player.role

/-- Game.add_player. -/
def Game.addPlayer (g : Game) (uid : Nat) (username firstName : String) : Bool × Game :=
  if g.hasPlayer uid then (false, g)
  else (true, { g with players := g.players ++ [{ userId := uid, username := username, firstName := firstName }] })

/-- Game.remove_player. -/
def Game.removePlayer (g : Game) (uid : Nat) : Bool × Game :=
  if g.hasPlayer uid then (true, { g with players := g.players.filter (fun p => p.userId != uid) })
  else (false, g)

/-- Game.get_alive_players. -/
def Game.getAlivePlayers (g : Game) : List Player :=
  g.players.filter (fun p => !p.eliminated)

/-- The role-count auto-adjustment block at the top of Game.start_game.  `coin`
is the value drawn by `random.choice([True, False])` for the 3-player case. -/
def autoSettings (s : Settings) (totalPlayers : Nat) (coin : Bool) : Settings :=
  if s.civilianCount = 0 then
    if totalPlayers = 3 then
      if coin then { s with civilianCount := 2, undercoverCount := 1, mrWhiteCount := 0 }
      else { s with civilianCount := 2, undercoverCount := 0, mrWhiteCount := 1 }
    else if totalPlayers = 4 then
      { s with civilianCount := 2, undercoverCount := 1, mrWhiteCount := 1 }
    else if totalPlayers ≤ 6 then
      { s with civilianCount := totalPlayers - 3, undercoverCount := 2, mrWhiteCount := 1 }
    else
      { s with civilianCount := totalPlayers - 4, undercoverCount := 2, mrWhiteCount := 2 }
  else s

/-- One iteration of a role-assignment loop in Game.start_game: the body
`if i < len(player_ids): players[player_ids[i]].role = r; ... .word = w`. -/
def assignSlot (g : Game) (ids : List Nat) (r : Role) (w : Option String) (i : Nat) : Game :=
  match ids[i]? with
  | some uid => g.updatePlayer uid (fun p => { p with role := some r, word := w })
  | none => g

/-- A role-assignment loop `for i in range(lo, lo + len)` in Game.start_game. -/
def assignRange (g : Game) (ids : List Nat) (lo len : Nat) (r : Role) (w : Option String) : Game :=
  (List.range' lo len).foldl (fun acc i => assignSlot acc ids r w i) g

/-- The `while` scan in Game.start_game looking for the first turn-order slot
whose player is not Mr. White (runs off the end if all are Mr. White). -/
def firstNonMwIdx (g : Game) (order : List Nat) : Nat :=
  order.findIdx (fun uid => !(decide (g.roleOf uid = some Role.mrWhite)))

/-- The tuple swap `turn_order[0], turn_order[i] = turn_order[i], turn_order[0]`. -/
def swapIdx (l : List Nat) (i j : Nat) : List Nat :=
  match l[i]?, l[j]? with
  | some a, some b => (l.set i b).set j a
  | _, _ => l

/-- Game.start_game.  `pairs` is SOCCER_PLAYER_PAIRS; `coin` the 3-player random
choice; `pair` the pair drawn by `random.choice(SOCCER_PLAYER_PAIRS)`;
`shuffledIds` the result of shuffling `list(self.players.keys())`; and
`shuffledOrder` the result of the second, independent shuffle that becomes
the turn order. -/
def Game.startGame (g : Game) (pairs : List WordPair) (coin : Bool) (pair : WordPair)
    (shuffledIds shuffledOrder : List Nat) : Bool × Game :=
  if g.players.length < 3 then (false, g)
  else if pairs = [] then (false, g)
  else
    let totalPlayers := g.players.length
    let s := autoSettings g.settings totalPlayers coin
    let g1 := { g with settings := s, civilianWord := some pair.civilian,
                       undercoverWord := some pair.undercover }
    let g2 := assignRange g1 shuffledIds 0 s.civilianCount Role.civilian (some pair.civilian)
    let g3 := assignRange g2 shuffledIds s.civilianCount s.undercoverCount Role.undercover
      (some pair.undercover)
    let g4 := assignRange g3 shuffledIds (s.civilianCount + s.undercoverCount)
      (totalPlayers - (s.civilianCount + s.undercoverCount)) Role.mrWhite none
    let order :=
      if !s.mrWhiteStart then
        let i := firstNonMwIdx g4 shuffledOrder
        if i < shuffledOrder.length ∧ 0 < i then swapIdx shuffledOrder 0 i else shuffledOrder
      else shuffledOrder
    (true, { g4 with turnOrder := order, currentTurnIdx := 0,
                     state := GameState.playing, roundNumber := 1 })

/-- The inner scan of Game.next_turn: `for _ in range(len(self.turn_order))`,
advancing the index modulo the turn-order length, breaking unsuccessfully when
the scan returns to the original index and successfully at the first living,
not-yet-spoken player.  Returns (found flag, final index). -/
def turnScan (g : Game) (origIdx : Nat) : Nat → Nat → Bool × Nat
  | 0, idx => (false, idx)
  | k + 1, idx =>
    let idx2 := (idx + 1) % g.turnOrder.length
    if idx2 = origIdx then (false, idx2)
    else
      let nid := g.turnOrder.getD idx2 0
      if !(g.isElim nid) && !(g.spokenOf nid) then (true, idx2)
      else turnScan g origIdx k idx2

mutual

/-- Game.next_turn with explicit fuel for the mutual recursion with
Game.get_current_player_id; a `none` result means the recursion did not
terminate within the given fuel. -/
def Game.nextTurnF : Nat → Game → Option (Option Nat × Game)
  | 0, _ => none
  | fuel + 1, g =>
    if g.state = GameState.playing then
      match Game.getCurrentF fuel g with
      | none => none
      | some (cur, g0) =>
        let g1 := match cur with
          | some uid => if uid ≠ 0 then g0.updatePlayer uid (fun p => { p with hasSpoken := true }) else g0
          | none => g0
        if g1.players.all (fun p => p.eliminated || p.hasSpoken) then
          some (none, { g1 with state := GameState.voting })
        else
          let r := turnScan g1 g1.currentTurnIdx g1.turnOrder.length g1.currentTurnIdx
          if r.1 then some (some (g1.turnOrder.getD r.2 0), { g1 with currentTurnIdx := r.2 })
          else some (none, { g1 with currentTurnIdx := r.2, state := GameState.voting })
    else some (none, g)

/-- Game.get_current_player_id with explicit fuel (it recurses into
Game.next_turn when the player at the current index is eliminated). -/
def Game.getCurrentF : Nat → Game → Option (Option Nat × Game)
  | 0, _ => none
  | fuel + 1, g =>
    if g.state = GameState.playing ∧ g.turnOrder.length ≠ 0 then
      let cur := g.turnOrder.getD g.currentTurnIdx 0
      if g.isElim cur then Game.nextTurnF fuel g
      else some (some cur, g)
    else some (none, g)

end

/-- Game.all_players_spoken. -/
def Game.allPlayersSpoken (g : Game) : Bool :=
  g.players.all (fun p => p.eliminated || p.hasSpoken)

/-- Game.cast_vote. -/
def Game.castVote (g : Game) (voterId targetId : Nat) : Bool × Game :=
  if g.state ≠ GameState.voting
     ∨ ¬g.hasPlayer voterId
     ∨ ¬g.hasPlayer targetId
     ∨ g.isElim voterId
     ∨ g.isElim targetId
     ∨ g.votedOf voterId then
    (false, g)
  else
    (true, g.updatePlayer voterId (fun p => { p with hasVoted := true, voteTarget := some targetId }))

/-- Game.all_players_voted. -/
def Game.allPlayersVoted (g : Game) : Bool :=
  g.players.all (fun p => p.eliminated || p.hasVoted)

/-- `vote_count[t] = vote_count.get(t, 0) + 1` on an insertion-ordered dict
modelled as an association list. -/
def bump : List (Nat × Nat) → Nat → List (Nat × Nat)
  | [], t => [(t, 1)]
  | (k, v) :: rest, t => if k = t then (k, v + 1) :: rest else (k, v) :: bump rest t

/-- The tally loop of Game.resolve_votes: one dict entry per vote target, in
first-vote order, counting votes of living voters who have voted. -/
def tallyVotes (players : List Player) : List (Nat × Nat) :=
  players.foldl
    (fun acc p =>
      if !p.eliminated && p.hasVoted && p.voteTarget.isSome then
        bump acc (p.voteTarget.getD 0)
      else acc)
    []

/-- The max-votes scan of Game.resolve_votes over the tally entries, carrying
the running maximum and the list of players achieving it. -/
def maxVoteScan : List (Nat × Nat) → Nat → List Nat → Nat × List Nat
  | [], mx, acc => (mx, acc)
  | (pid, v) :: rest, mx, acc =>
    if v > mx then maxVoteScan rest v [pid]
    else if v = mx then maxVoteScan rest mx (acc ++ [pid])
    else maxVoteScan rest mx acc

/-- The role-counting loop of Game.check_win_condition: living civilian,
undercover and Mr. White counts, in that order. -/
def countAlive (l : List Player) : Nat × Nat × Nat :=
  l.foldl
    (fun acc p =>
      if !p.eliminated then
        match p.role with
        | some Role.civilian => (acc.1 + 1, acc.2.1, acc.2.2)
        | some Role.undercover => (acc.1, acc.2.1 + 1, acc.2.2)
        | some Role.mrWhite => (acc.1, acc.2.1, acc.2.2 + 1)
        | none => acc
      else acc)
    (0, 0, 0)

/-- Game.check_win_condition: returns the winning role (if any) and the updated game. -/
def Game.checkWinCondition (g : Game) : Option Role × Game :=
  let c := countAlive g.players
  let civilianCount := c.1
  let undercoverCount := c.2.1
  let mrWhiteCount := c.2.2
  if mrWhiteCount = 1 ∧ civilianCount + undercoverCount = 1 then
    (none, { g with state := GameState.mrWhiteGuessing })
  else if civilianCount = 0 ∨ undercoverCount + mrWhiteCount ≥ civilianCount then
    (some Role.undercover, { g with state := GameState.gameOver })
  else if undercoverCount = 0 ∧ mrWhiteCount = 0 then
    (some Role.civilian, { g with state := GameState.gameOver })
  else (none, g)

/-- The per-player body of the reset loop at the top of Game._prepare_next_round. -/
def clearRound (p : Player) : Player :=
  { p with hasVoted := false, voteTarget := none, hasSpoken := false, description := none }

/-- Game._prepare_next_round with explicit fuel for the nested Game.next_turn /
Game.get_current_player_id calls. -/
def Game.prepareNextRoundF (fuel : Nat) (g : Game) (lastEliminatedId : Option Nat) : Option Game :=
  let g1 := { g with
    players := g.players.map clearRound,
    roundNumber := g.roundNumber + 1 }
  match lastEliminatedId with
  | some uid =>
    if uid ∈ g1.turnOrder then
      let g2 := { g1 with currentTurnIdx := g1.turnOrder.indexOf uid }
      match Game.nextTurnF fuel g2 with
      | none => none
      | some (np, g3) =>
        match np with
        | some n => if n ≠ 0 then some { g3 with state := GameState.playing }
                    else some (Game.checkWinCondition g3).2
        | none => some (Game.checkWinCondition g3).2
    else
      let g2 := { g1 with currentTurnIdx := 0 }
      match Game.getCurrentF fuel g2 with
      | none => none
      | some (np, g3) =>
        match np with
        | some n => if n ≠ 0 then some { g3 with state := GameState.playing }
                    else some (Game.checkWinCondition g3).2
        | none => some (Game.checkWinCondition g3).2
  | none =>
    let g2 := { g1 with currentTurnIdx := 0 }
    match Game.getCurrentF fuel g2 with
    | none => none
    | some (np, g3) =>
      match np with
      | some n => if n ≠ 0 then some { g3 with state := GameState.playing }
                  else some (Game.checkWinCondition g3).2
      | none => some (Game.checkWinCondition g3).2

/-- Game.resolve_votes with explicit fuel for the nested round preparation.
`rand` models `random.choice` on the tied-players list. -/
def Game.resolveVotesF (fuel : Nat) (g : Game) (rand : List Nat → Nat) :
    Option (Option Nat × Game) :=
  if g.state = GameState.voting then
    let scan := maxVoteScan (tallyVotes g.players) 0 []
    let maxVotePlayers := scan.2
    if maxVotePlayers = [] then some (none, g)
    else
      let eliminatedPlayerId : Option Nat :=
        if maxVotePlayers.length = 1 then some (maxVotePlayers.headD 0)
        else if g.settings.tiebreaker = "random" then some (rand maxVotePlayers)
        else none
      match eliminatedPlayerId with
      | some e =>
        if e ≠ 0 then
          let g1 := g.updatePlayer e (fun p => { p with eliminated := true })
          if g1.roleOf e = some Role.mrWhite then
            some (some e, { g1 with state := GameState.mrWhiteGuessing })
          else
            let remaining := g1.getAlivePlayers
            if remaining.length = 2 then
              match remaining.find? (fun p => decide (p.role = some Role.mrWhite)) with
              | some mwp => some (some mwp.userId, { g1 with state := GameState.mrWhiteGuessing })
              | none =>
                match g1.prepareNextRoundF fuel (some e) with
                | some g2 => some (some e, g2)
                | none => none
            else
              match g1.prepareNextRoundF fuel (some e) with
              | some g2 => some (some e, g2)
              | none => none
        else some (some e, g)
      | none => some (none, g)
  else some (none, g)

/-- Game.check_mr_white_guess (case-insensitive comparison with the civilian word;
the Python code crashes if no civilian word is set, so the word is a parameter here
and theorems require `g.civilianWord = some w`). -/
def Game.checkMrWhiteGuess (g : Game) (guess : String) : Bool :=
  guess.toLower == ((g.civilianWord.getD "").toLower)

/-- Game.reset_after_mr_white_guess with explicit fuel for the nested round
preparation. -/
def Game.resetAfterMrWhiteGuessF (fuel : Nat) (g : Game) (mrWhiteWon : Bool) : Option Game :=
  if mrWhiteWon then some { g with state := GameState.gameOver }
  else g.prepareNextRoundF fuel none

/-- Number of votes cast for target `t` by living voters (specification-side
count used to state properties of the tally loop). -/
def Game.votesFor (g : Game) (t : Nat) : Nat :=
  g.players.countP (fun p => !p.eliminated && p.hasVoted && (p.voteTarget == some t))

/-- Number of living players holding role `r` (specification-side count used
to state properties of Game.check_win_condition). -/
def Game.livingRoleCount (g : Game) (r : Role) : Nat :=
  (g.players.filter (fun p => !p.eliminated && (p.role == some r))).length

/-- Number of players currently assigned role `r`. -/
def Game.roleCount (g : Game) (r : Role) : Nat :=
  (g.players.filter (fun p => p.role == some r)).length

/-- Frame condition: every participant present both before and after keeps its
role, word and eliminated flag. -/
def preservesRWE (g g' : Game) : Prop :=
  ∀ uid p p', g.findPlayer uid = some p → g'.findPlayer uid = some p' →
    p'.role = p.role ∧ p'.word = p.word ∧ p'.eliminated = p.eliminated

/-- The turn index set by Game._prepare_next_round before it looks for the next
player: the eliminated player's slot when the id is in the turn order, otherwise 0. -/
def prepIdx (g : Game) (lastEliminatedId : Option Nat) : Nat :=
  match lastEliminatedId with
  | some uid => if uid ∈ g.turnOrder then g.turnOrder.indexOf uid else 0
  | none => 0

/-- Reads the tally count of a target out of the association-list vote dict
(`vote_count.get(t, 0)`). -/
def lookupCount (l : List (Nat × Nat)) (t : Nat) : Nat :=
  ((l.find? (fun kv => kv.1 == t)).map (fun kv => kv.2)).getD 0

/-- Shorthand for building a concrete player. -/
def mkP (uid : Nat) (r : Option Role) (elim spoken voted : Bool) (vt : Option Nat) : Player :=
  { userId := uid, username := "u", firstName := "f", role := r, word := none,
    hasSpoken := spoken, hasVoted := voted, voteTarget := vt, eliminated := elim }

/-- A concrete choice function for `random.choice` on nonempty lists. -/
def rnd0 : List Nat → Nat := fun l => l.headD 0

/-- Concrete session: five living players in the voting phase, everyone voting
for player 4 (the undercover), so that resolving the votes eliminates a
non-Mr.-White player without ending the game. -/
def gC1 : Game :=
  { chatId := 0, creatorId := 1, state := GameState.voting,
    players := [mkP 1 (some Role.civilian) false true true (some 4),
                mkP 2 (some Role.civilian) false true true (some 4),
                mkP 3 (some Role.civilian) false true true (some 4),
                mkP 4 (some Role.undercover) false true true (some 4),
                mkP 5 (some Role.mrWhite) false true true (some 4)],
    turnOrder := [1, 2, 3, 4, 5], currentTurnIdx := 0, roundNumber := 1,
    settings := { tiebreaker := "random" } }

/-- Concrete session in the playing state whose current-index participant is
eliminated (reachable after Mr. White at slot 0 fails a guess and the guess
handler forces the state back to playing). -/
def gC3 : Game :=
  { chatId := 0, creatorId := 1, state := GameState.playing,
    players := [mkP 1 (some Role.mrWhite) true false false none,
                mkP 2 (some Role.civilian) false false false none],
    turnOrder := [1, 2], currentTurnIdx := 0, roundNumber := 2 }

/-- Concrete session with four players and manual counts (0, 5, 0): the aligned
count is zero but the outlier count is not, so not all three manual counts are
zero. -/
def gC2x : Game :=
  { chatId := 0, creatorId := 1, state := GameState.waitingForPlayers,
    players := [mkP 1 none false false false none, mkP 2 none false false false none,
                mkP 3 none false false false none, mkP 4 none false false false none],
    settings := { civilianCount := 0, undercoverCount := 5, mrWhiteCount := 0 } }

/-- Concrete three-player session used to witness the amended automatic
distribution claim. -/
def gC2w : Game :=
  { chatId := 0, creatorId := 1, state := GameState.waitingForPlayers,
    players := [mkP 1 none false false false none, mkP 2 none false false false none,
                mkP 3 none false false false none] }

/-- Concrete finished session (GameOver) with assigned roles, used to show that
startGame reassigns roles after the game is over. -/
def gC4x : Game :=
  { chatId := 0, creatorId := 1, state := GameState.gameOver,
    players := [mkP 1 (some Role.mrWhite) false false false none,
                mkP 2 (some Role.civilian) false false false none,
                mkP 3 (some Role.civilian) false false false none],
    turnOrder := [2, 3, 1], roundNumber := 4,
    settings := { civilianCount := 2, undercoverCount := 1, mrWhiteCount := 0 } }

/-- Concrete finished session used to witness the amended GameOver frame claim. -/
def gC4w : Game :=
  { chatId := 0, creatorId := 1, state := GameState.gameOver,
    players := [mkP 1 (some Role.civilian) false false false none,
                mkP 2 (some Role.undercover) true false false none],
    turnOrder := [1, 2], roundNumber := 3 }

/-- Concrete session in the voting state with three players, on which the engine
startGame nevertheless succeeds. -/
def gC5x : Game :=
  { chatId := 0, creatorId := 1, state := GameState.voting,
    players := [mkP 1 none false false false none, mkP 2 none false false false none,
                mkP 3 none false false false none],
    turnOrder := [1, 2, 3], roundNumber := 2 }

/-- Concrete two-player session used to witness the amended startGame
precondition claim. -/
def gC5w : Game :=
  { chatId := 0, creatorId := 1, state := GameState.waitingForPlayers,
    players := [mkP 1 none false false false none, mkP 2 none false false false none] }

/-- Concrete voting session with no votes cast. -/
def gC6a : Game :=
  { chatId := 0, creatorId := 1, state := GameState.voting,
    players := [mkP 1 (some Role.civilian) false true false none,
                mkP 2 (some Role.civilian) false true false none,
                mkP 3 (some Role.undercover) false true false none],
    turnOrder := [1, 2, 3], roundNumber := 1 }

/-- Concrete voting session with a unique maximum vote holder (player 3). -/
def gC6b : Game :=
  { chatId := 0, creatorId := 1, state := GameState.voting,
    players := [mkP 1 (some Role.civilian) false true true (some 3),
                mkP 2 (some Role.civilian) false true true (some 3),
                mkP 3 (some Role.undercover) false true true (some 1),
                mkP 4 (some Role.civilian) false true true (some 3)],
    turnOrder := [1, 2, 3, 4], roundNumber := 1,
    settings := { tiebreaker := "random" } }

/-- Concrete voting session with a 2-2 tie and tiebreaker "none". -/
def gC6c : Game :=
  { chatId := 0, creatorId := 1, state := GameState.voting,
    players := [mkP 1 (some Role.civilian) false true true (some 2),
                mkP 2 (some Role.undercover) false true true (some 1),
                mkP 3 (some Role.civilian) false true true (some 2),
                mkP 4 (some Role.civilian) false true true (some 1)],
    turnOrder := [1, 2, 3, 4], roundNumber := 1,
    settings := { tiebreaker := "none" } }

/-- Concrete voting session with a 2-2 tie and tiebreaker "random". -/
def gC6d : Game :=
  { chatId := 0, creatorId := 1, state := GameState.voting,
    players := [mkP 1 (some Role.civilian) false true true (some 2),
                mkP 2 (some Role.undercover) false true true (some 1),
                mkP 3 (some Role.civilian) false true true (some 2),
                mkP 4 (some Role.civilian) false true true (some 1)],
    turnOrder := [1, 2, 3, 4], roundNumber := 1,
    settings := { tiebreaker := "random" } }

/-- Concrete session used to witness the win-condition claim: one living
civilian against one living undercover, nobody else alive. -/
def gC7w : Game :=
  { chatId := 0, creatorId := 1, state := GameState.voting,
    players := [mkP 1 (some Role.civilian) false false false none,
                mkP 2 (some Role.civilian) true false false none,
                mkP 3 (some Role.undercover) false false false none,
                mkP 4 (some Role.mrWhite) true false false none],
    turnOrder := [1, 2, 3, 4], roundNumber := 2 }

/-- Concrete voting session with a 2-2 tie, tiebreaker "none" and round number 3. -/
def gC8x : Game :=
  { chatId := 0, creatorId := 1, state := GameState.voting,
    players := [mkP 1 (some Role.civilian) false true true (some 2),
                mkP 2 (some Role.undercover) false true true (some 1),
                mkP 3 (some Role.civilian) false true true (some 2),
                mkP 4 (some Role.civilian) false true true (some 1)],
    turnOrder := [1, 2, 3, 4], roundNumber := 3,
    settings := { tiebreaker := "none" } }

/-- Concrete Mr.-White-guessing session: player 3 (Mr. White) was just
eliminated by vote and owes a guess. -/
def gC9w : Game :=
  { chatId := 0, creatorId := 1, state := GameState.mrWhiteGuessing,
    players := [mkP 1 (some Role.civilian) false true true (some 3),
                mkP 2 (some Role.civilian) false true true (some 3),
                mkP 3 (some Role.mrWhite) true true true (some 1),
                mkP 4 (some Role.undercover) false true true (some 3)],
    turnOrder := [1, 2, 3, 4], currentTurnIdx := 2, roundNumber := 2,
    civilianWord := some "A", undercoverWord := some "B" }

/-- Concrete started session used to witness the removeParticipant frame claim. -/
def gC10w : Game :=
  { chatId := 0, creatorId := 1, state := GameState.playing,
    players := [mkP 1 (some Role.civilian) false false false none,
                mkP 2 (some Role.undercover) false false false none,
                mkP 3 (some Role.civilian) false false false none],
    turnOrder := [3, 1, 2], currentTurnIdx := 1, roundNumber := 1,
    civilianWord := some "A", undercoverWord := some "B" }

theorem find?_map_userId (l : List Player) (f : Player → Player) (x : Nat)
    (hf : ∀ p, (f p).userId = p.userId) :
    (l.map f).find? (fun p => p.userId == x) = (l.find? (fun p => p.userId == x)).map f := by
  induction l with
  | nil => rfl
  | cons a t ih =>
    simp only [List.map_cons, List.find?]
    rw [hf a]
    cases h : (a.userId == x) with
    | true => rfl
    | false => exact ih

theorem findPlayer_some_userId (g : Game) (x : Nat) (p : Player)
    (h : g.findPlayer x = some p) : p.userId = x := by
  have := List.find?_some h
  simpa using this

theorem findPlayer_update (g : Game) (uid : Nat) (f : Player → Player) (x : Nat)
    (hf : ∀ p, (f p).userId = p.userId) :
    (g.updatePlayer uid f).findPlayer x =
      if x = uid then (g.findPlayer x).map f else g.findPlayer x := by
  have base := find?_map_userId g.players (fun p => if p.userId == uid then f p else p) x
    (by intro p; by_cases h : p.userId == uid <;> simp [h, hf])
  unfold Game.updatePlayer Game.findPlayer
  simp only []
  rw [base]
  cases hfind : g.players.find? (fun p => p.userId == x) with
  | none => simp only [hfind, Option.map_none']; split <;> rfl
  | some p =>
    have hp : p.userId = x := by simpa using List.find?_some hfind
    simp only [hfind, Option.map_some']
    by_cases hxu : x = uid
    · rw [if_pos hxu]
      have hb : (p.userId == uid) = true := by simp [hp, hxu]
      simp [hb]
    · rw [if_neg hxu]
      have hb : (p.userId == uid) = false := by simp [hp, hxu]
      simp [hb]

theorem hasPlayer_exists (g : Game) (uid : Nat) :
    g.hasPlayer uid = true ↔ ∃ p ∈ g.players, p.userId = uid := by
  simp [Game.hasPlayer, List.any_eq_true]

theorem find?_filter_self (l : List Player) (uid : Nat) :
    (l.filter (fun p => p.userId != uid)).find? (fun p => p.userId == uid) = none := by
  rw [List.find?_eq_none]
  intro p hp
  have h := (List.mem_filter.mp hp).2
  simp at h ⊢
  exact h

theorem find?_filter_ne (l : List Player) (uid x : Nat) (hx : x ≠ uid) :
    (l.filter (fun p => p.userId != uid)).find? (fun p => p.userId == x) =
      l.find? (fun p => p.userId == x) := by
  induction l with
  | nil => rfl
  | cons a t ih =>
    by_cases ha : a.userId = uid
    · have hfa : (a.userId != uid) = false := by simp [ha]
      have hax : (a.userId == x) = false := by
        simp only [beq_eq_false_iff_ne, ne_eq, ha]
        exact fun h => hx h.symm
      rw [List.filter_cons]
      simp only [hfa, Bool.false_eq_true, if_false]
      rw [ih, List.find?]
      simp [hax]
    · have hfa : (a.userId != uid) = true := by simp [ha]
      rw [List.filter_cons]
      simp only [hfa, if_true]
      rw [List.find?, List.find?]
      cases hax : (a.userId == x) with
      | true => rfl
      | false => exact ih

theorem filter_ne_length (l : List Player) (uid : Nat)
    (hnd : (l.map Player.userId).Nodup) (hmem : ∃ p ∈ l, p.userId = uid) :
    (l.filter (fun p => p.userId != uid)).length + 1 = l.length := by
  induction l with
  | nil => simp at hmem
  | cons a t ih =>
    rw [List.map_cons, List.nodup_cons] at hnd
    by_cases ha : a.userId = uid
    · have hfa : (a.userId != uid) = false := by simp [ha]
      rw [List.filter_cons]
      simp only [hfa, Bool.false_eq_true, if_false]
      have hkeep : t.filter (fun p => p.userId != uid) = t := by
        rw [List.filter_eq_self]
        intro p hp
        have hne : p.userId ≠ uid := by
          intro hpu
          exact hnd.1 (ha ▸ hpu ▸ List.mem_map_of_mem Player.userId hp)
        simp [hne]
      rw [hkeep]
      simp
    · have hfa : (a.userId != uid) = true := by simp [ha]
      rw [List.filter_cons]
      simp only [hfa, if_true]
      have hmem' : ∃ p ∈ t, p.userId = uid := by
        rcases hmem with ⟨p, hp, hpu⟩
        rcases List.mem_cons.mp hp with h | h
        · exact absurd (h ▸ hpu) ha
        · exact ⟨p, h, hpu⟩
      have := ih hnd.2 hmem'
      simp only [List.length_cons]
      omega

theorem turnOps_diverge (g : Game)
    (hst : g.state = GameState.playing)
    (hlen : g.turnOrder.length ≠ 0)
    (helim : g.isElim (g.turnOrder.getD g.currentTurnIdx 0) = true) :
    ∀ n, Game.getCurrentF n g = none ∧ Game.nextTurnF n g = none := by
  intro n
  induction n with
  | zero => exact ⟨rfl, rfl⟩
  | succ k ih =>
    constructor
    · rw [Game.getCurrentF]
      rw [if_pos ⟨hst, hlen⟩]
      simp only [helim, if_true]
      exact ih.2
    · rw [Game.nextTurnF]
      rw [if_pos hst, ih.1]

/-- C3: the claim asserts that getCurrentParticipant and advanceTurn terminate in
bounded time for every reachable session state, including when the participant at
currentTurnIndex is eliminated.  On the concrete playing-state session gC3, whose
current-index participant is eliminated (reachable after Mr. White at turn-order
slot 0 fails a guess and the guess handler forces the state back to playing), the
mutual recursion between get_current_player_id and next_turn never terminates: no
amount of fuel suffices. -/
theorem c3_turn_ops_nonterminating :
    ∀ n : Nat, Game.getCurrentF n gC3 = none ∧ Game.nextTurnF n gC3 = none :=
  turnOps_diverge gC3 rfl (by decide) (by decide)

/-- C1: the claim asserts that after resolve_votes eliminates a non-Mr.-White
player (no two-player edge case, no win), the state is Playing and the turn index
points at the next living unspoken participant after the eliminated slot.  On the
concrete session gC1 (five living players, all voting for the undercover player 4)
the round number is incremented to 2 and all per-round flags are cleared, but the
state remains Voting and currentTurnIdx stays exactly at the eliminated player's
slot (index 3): _prepare_next_round calls next_turn while the state is still
Voting, so next_turn's state guard returns None and the repositioning and the
transition back to Playing never happen. -/
theorem c1_resolveVotes_no_reentry_to_playing :
    (Game.resolveVotesF 2 gC1 rnd0).map
        (fun r => (r.1, r.2.state, r.2.currentTurnIdx, r.2.roundNumber)) =
      some (some 4, GameState.voting, 3, 2) ∧
    gC1.turnOrder.indexOf 4 = 3 ∧
    (Game.resolveVotesF 2 gC1 rnd0).map
        (fun r => r.2.players.all
          (fun p => !p.hasSpoken && !p.hasVoted && p.voteTarget == none && p.description == none)) =
      some true := by
  exact ⟨by decide, by decide, by decide⟩

/-- C10: removeParticipant on a session containing the participant deletes only
that roster entry and leaves everything else unchanged: other participants'
entries, the turn order (still containing the removed id if it did before),
the current turn index, state, words, round number and settings. -/
theorem c10_removeParticipant_frame (g : Game) (uid : Nat)
    (hp : g.hasPlayer uid = true)
    (hnd : (g.players.map Player.userId).Nodup) :
    (g.removePlayer uid).1 = true ∧
    (g.removePlayer uid).2.findPlayer uid = none ∧
    (∀ x, x ≠ uid → (g.removePlayer uid).2.findPlayer x = g.findPlayer x) ∧
    (g.removePlayer uid).2.players.length + 1 = g.players.length ∧
    (g.removePlayer uid).2.turnOrder = g.turnOrder ∧
    (uid ∈ g.turnOrder → uid ∈ (g.removePlayer uid).2.turnOrder) ∧
    (g.removePlayer uid).2.state = g.state ∧
    (g.removePlayer uid).2.currentTurnIdx = g.currentTurnIdx ∧
    (g.removePlayer uid).2.civilianWord = g.civilianWord ∧
    (g.removePlayer uid).2.undercoverWord = g.undercoverWord ∧
    (g.removePlayer uid).2.roundNumber = g.roundNumber ∧
    (g.removePlayer uid).2.settings = g.settings := by
  unfold Game.removePlayer
  rw [if_pos hp]
  refine ⟨rfl, ?_, ?_, ?_, rfl, fun h => h, rfl, rfl, rfl, rfl, rfl, rfl⟩
  · exact find?_filter_self g.players uid
  · intro x hx
    exact find?_filter_ne g.players uid x hx
  · exact filter_ne_length g.players uid hnd ((hasPlayer_exists g uid).mp hp)

/-- Witness for C10 at a concrete started session (removing player 2). -/
theorem c10_removeParticipant_frame_witness :
    gC10w.hasPlayer 2 = true ∧
    (gC10w.removePlayer 2).2.findPlayer 2 = none ∧
    (gC10w.removePlayer 2).2.turnOrder = gC10w.turnOrder := by
  have h := c10_removeParticipant_frame gC10w 2 (by decide) (by decide)
  exact ⟨by decide, h.2.1, h.2.2.2.2.1⟩

/-- C5 counterexample: the claim asserts the engine startGame fails and changes
nothing unless the state is WaitingForPlayers; on the concrete voting-state
session gC5x with three players and a nonempty word-pair list, the engine
startGame succeeds and mutates the session (it has no state guard; the guard
lives in the command handler). -/
theorem c5_startGame_state_counterexample :
    gC5x.state = GameState.voting ∧
    (gC5x.startGame [⟨"A", "B"⟩] true ⟨"A", "B"⟩ [1, 2, 3] [1, 2, 3]).1 = true ∧
    (gC5x.startGame [⟨"A", "B"⟩] true ⟨"A", "B"⟩ [1, 2, 3] [1, 2, 3]).2 ≠ gC5x := by
  exact ⟨by decide, by decide, by decide⟩

/-- C5 amended: the engine startGame fails and leaves the session unchanged
exactly when the participant count is below 3 or the word-pair source is empty
(the WaitingForPlayers precondition is enforced by the transport handler, not by
the engine); with at least 3 participants and a nonempty pair list it reports
success. -/
theorem c5_startGame_preconditions (g : Game) (pairs : List WordPair) (coin : Bool)
    (pair : WordPair) (ids ord : List Nat) :
    (g.players.length < 3 ∨ pairs = [] → g.startGame pairs coin pair ids ord = (false, g)) ∧
    (3 ≤ g.players.length → pairs ≠ [] → (g.startGame pairs coin pair ids ord).1 = true) := by
  constructor
  · intro h
    unfold Game.startGame
    rcases h with h | h
    · rw [if_pos h]
    · by_cases h3 : g.players.length < 3
      · rw [if_pos h3]
      · rw [if_neg h3, if_pos h]
  · intro h3 hp
    unfold Game.startGame
    rw [if_neg (by omega), if_neg hp]

/-- Witness for C5 amended: a two-player session fails with no change, and a
three-player session starts successfully. -/
theorem c5_startGame_preconditions_witness :
    gC5w.startGame [⟨"A", "B"⟩] true ⟨"A", "B"⟩ [1, 2] [1, 2] = (false, gC5w) ∧
    (gC2w.startGame [⟨"A", "B"⟩] true ⟨"A", "B"⟩ [1, 2, 3] [1, 2, 3]).1 = true := by
  constructor
  · exact (c5_startGame_preconditions gC5w [⟨"A", "B"⟩] true ⟨"A", "B"⟩ [1, 2] [1, 2]).1
      (Or.inl (by decide))
  · exact (c5_startGame_preconditions gC2w [⟨"A", "B"⟩] true ⟨"A", "B"⟩ [1, 2, 3] [1, 2, 3]).2
      (by decide) (by decide)

/-- C4 counterexample: the claim asserts that in GameOver no engine operation
changes any participant's role; on the concrete finished session gC4x, calling
the engine startGame (which has no state guard) reassigns player 1 from
Mr. White to civilian and gives it a word. -/
theorem c4_gameOver_startGame_counterexample :
    gC4x.state = GameState.gameOver ∧
    ((gC4x.startGame [⟨"A", "B"⟩] true ⟨"A", "B"⟩ [1, 2, 3] [1, 2, 3]).2.findPlayer 1).map
        Player.role = some (some Role.civilian) ∧
    (gC4x.findPlayer 1).map Player.role = some (some Role.mrWhite) := by
  exact ⟨by decide, by decide, by decide⟩

theorem nextTurnF_not_playing (g : Game) (fuel : Nat)
    (h : g.state ≠ GameState.playing) (hf : 1 ≤ fuel) :
    Game.nextTurnF fuel g = some (none, g) := by
  cases fuel with
  | zero => omega
  | succ k => rw [Game.nextTurnF, if_neg h]

theorem getCurrentF_not_playing (g : Game) (fuel : Nat)
    (h : g.state ≠ GameState.playing) (hf : 1 ≤ fuel) :
    Game.getCurrentF fuel g = some (none, g) := by
  cases fuel with
  | zero => omega
  | succ k => rw [Game.getCurrentF, if_neg (fun hc => h hc.1)]

theorem checkWinCondition_players (g : Game) :
    (Game.checkWinCondition g).2.players = g.players := by
  simp only [Game.checkWinCondition]
  split
  · rfl
  split
  · rfl
  split <;> rfl

theorem checkWinCondition_frame (g : Game) :
    (Game.checkWinCondition g).2.turnOrder = g.turnOrder ∧
    (Game.checkWinCondition g).2.currentTurnIdx = g.currentTurnIdx ∧
    (Game.checkWinCondition g).2.roundNumber = g.roundNumber ∧
    (Game.checkWinCondition g).2.settings = g.settings ∧
    (Game.checkWinCondition g).2.civilianWord = g.civilianWord ∧
    (Game.checkWinCondition g).2.undercoverWord = g.undercoverWord := by
  simp only [Game.checkWinCondition]
  split
  · exact ⟨rfl, rfl, rfl, rfl, rfl, rfl⟩
  split
  · exact ⟨rfl, rfl, rfl, rfl, rfl, rfl⟩
  split <;> exact ⟨rfl, rfl, rfl, rfl, rfl, rfl⟩

theorem prepare_eval (g : Game) (fuel : Nat) (le : Option Nat)
    (hst : g.state ≠ GameState.playing) (hf : 1 ≤ fuel) :
    Game.prepareNextRoundF fuel g le = some
      (Game.checkWinCondition
        { g with players := g.players.map clearRound,
                 roundNumber := g.roundNumber + 1,
                 currentTurnIdx := prepIdx g le }).2 := by
  unfold Game.prepareNextRoundF prepIdx
  cases le with
  | none =>
    simp only []
    rw [getCurrentF_not_playing
      { g with players := g.players.map clearRound, roundNumber := g.roundNumber + 1,
               currentTurnIdx := 0 } fuel hst hf]
  | some uid =>
    simp only []
    by_cases hmem : uid ∈ g.turnOrder
    · rw [if_pos (by simpa using hmem), if_pos hmem]
      rw [nextTurnF_not_playing
        { g with players := g.players.map clearRound, roundNumber := g.roundNumber + 1,
                 currentTurnIdx := g.turnOrder.indexOf uid } fuel hst hf]
    · rw [if_neg (by simpa using hmem), if_neg hmem]
      rw [getCurrentF_not_playing
        { g with players := g.players.map clearRound, roundNumber := g.roundNumber + 1,
                 currentTurnIdx := 0 } fuel hst hf]

theorem preservesRWE_of_players_eq (g g' : Game) (h : g'.players = g.players) :
    preservesRWE g g' := by
  intro uid p p' h1 h2
  have heq : g'.findPlayer uid = g.findPlayer uid := by
    unfold Game.findPlayer
    rw [h]
  rw [heq, h1] at h2
  injection h2 with h3
  subst h3
  exact ⟨rfl, rfl, rfl⟩

theorem preservesRWE_of_players_map (g g' : Game) (f : Player → Player)
    (h : g'.players = g.players.map f)
    (hid : ∀ p, (f p).userId = p.userId)
    (hr : ∀ p, (f p).role = p.role)
    (hw : ∀ p, (f p).word = p.word)
    (he : ∀ p, (f p).eliminated = p.eliminated) :
    preservesRWE g g' := by
  intro uid p p' h1 h2
  have heq : g'.findPlayer uid = (g.findPlayer uid).map f := by
    unfold Game.findPlayer
    rw [h]
    exact find?_map_userId g.players f uid hid
  rw [heq, h1] at h2
  injection h2 with h3
  subst h3
  exact ⟨hr p, hw p, he p⟩

theorem find?_append_left (l₁ l₂ : List Player) (x : Nat) (p : Player)
    (h : l₁.find? (fun q => q.userId == x) = some p) :
    (l₁ ++ l₂).find? (fun q => q.userId == x) = some p := by
  induction l₁ with
  | nil => simp [List.find?] at h
  | cons a t ih =>
    rw [List.find?] at h
    show List.find? _ (a :: (t ++ l₂)) = some p
    rw [List.find?]
    cases ha : (a.userId == x) with
    | true => rw [ha] at h; exact h
    | false => rw [ha] at h; exact ih h

/-- C4 amended: once the session state is GameOver, each engine operation other
than startGame — addParticipant, removeParticipant, advanceTurn, castVote,
resolveVotes and resolveGuess — leaves every participant's role, word and
eliminated flag unchanged.  startGame must be excluded: it has no state guard
in the engine (the transport handler enforces it) and reassigns roles and
words even after GameOver. -/
theorem c4_gameOver_frame (g : Game) (h : g.state = GameState.gameOver) :
    (∀ uid un fn, preservesRWE g (g.addPlayer uid un fn).2) ∧
    (∀ uid, preservesRWE g (g.removePlayer uid).2) ∧
    (∀ fuel r g', Game.nextTurnF fuel g = some (r, g') → preservesRWE g g') ∧
    (∀ v t, preservesRWE g (g.castVote v t).2) ∧
    (∀ fuel rand r g', Game.resolveVotesF fuel g rand = some (r, g') → preservesRWE g g') ∧
    (∀ fuel won g', Game.resetAfterMrWhiteGuessF fuel g won = some g' → preservesRWE g g') := by
  refine ⟨?_, ?_, ?_, ?_, ?_, ?_⟩
  · intro uid un fn
    unfold Game.addPlayer
    by_cases hu : g.hasPlayer uid
    · rw [if_pos hu]
      exact preservesRWE_of_players_eq g g rfl
    · rw [if_neg hu]
      intro u p p' h1 h2
      unfold Game.findPlayer at h1 h2
      simp only [] at h2
      rw [find?_append_left _ _ _ _ h1] at h2
      injection h2 with h3
      subst h3
      exact ⟨rfl, rfl, rfl⟩
  · intro uid
    unfold Game.removePlayer
    by_cases hu : g.hasPlayer uid
    · rw [if_pos hu]
      intro u p p' h1 h2
      unfold Game.findPlayer at h1 h2
      simp only [] at h2
      by_cases hux : u = uid
      · subst hux
        rw [find?_filter_self] at h2
        exact absurd h2 (by simp)
      · rw [find?_filter_ne _ _ _ hux] at h2
        rw [h1] at h2
        injection h2 with h3
        subst h3
        exact ⟨rfl, rfl, rfl⟩
    · rw [if_neg hu]
      exact preservesRWE_of_players_eq g g rfl
  · intro fuel r g' hn
    cases fuel with
    | zero => exact absurd hn (by rw [Game.nextTurnF]; exact fun hh => nomatch hh)
    | succ k =>
      rw [nextTurnF_not_playing g (k + 1) (by simp [h]) (by omega)] at hn
      injection hn with h2
      injection h2 with h3 h4
      exact h4 ▸ preservesRWE_of_players_eq g g rfl
  · intro v t
    unfold Game.castVote
    rw [if_pos (Or.inl (by simp [h]))]
    exact preservesRWE_of_players_eq g g rfl
  · intro fuel rand r g' hn
    unfold Game.resolveVotesF at hn
    rw [if_neg (by simp [h])] at hn
    injection hn with h2
    injection h2 with h3 h4
    exact h4 ▸ preservesRWE_of_players_eq g g rfl
  · intro fuel won g' hn
    unfold Game.resetAfterMrWhiteGuessF at hn
    cases won with
    | true =>
      simp only [if_true] at hn
      injection hn with h2
      have hpl : g'.players = g.players := by rw [← h2]
      exact preservesRWE_of_players_eq g g' hpl
    | false =>
      simp only [Bool.false_eq_true, if_false] at hn
      cases fuel with
      | zero => simp [Game.prepareNextRoundF, Game.getCurrentF] at hn
      | succ k =>
        rw [prepare_eval g (k + 1) none (by simp [h]) (by omega)] at hn
        injection hn with h2
        have hpl : g'.players = g.players.map clearRound := by
          rw [← h2, checkWinCondition_players]
        exact preservesRWE_of_players_map g g' clearRound hpl
          (fun p => rfl) (fun p => rfl) (fun p => rfl) (fun p => rfl)

/-- Witness for C4 amended at a concrete finished session. -/
theorem c4_gameOver_frame_witness :
    gC4w.state = GameState.gameOver ∧ preservesRWE gC4w (gC4w.addPlayer 9 "x" "y").2 :=
  ⟨rfl, (c4_gameOver_frame gC4w rfl).1 9 "x" "y"⟩

/-- C9: in MrWhiteGuessing, resolveGuess(correct) transitions straight to
GameOver touching nothing else (the Blank-faction win is reported by the caller;
no win-condition evaluation runs); resolveGuess(incorrect) runs round
preparation: the round number is incremented, every per-round flag
(hasSpoken/hasVoted/voteTarget/description) is cleared, the turn index is
repositioned (to slot 0, no eliminated id being supplied), and every
participant's role, word and eliminated flag — in particular the guessing
participant's eliminated flag — are unchanged. -/
theorem c9_resolveGuess (g : Game) (fuel : Nat)
    (hst : g.state = GameState.mrWhiteGuessing) (hf : 1 ≤ fuel) :
    Game.resetAfterMrWhiteGuessF fuel g true = some { g with state := GameState.gameOver } ∧
    (∀ g', Game.resetAfterMrWhiteGuessF fuel g false = some g' →
      g'.roundNumber = g.roundNumber + 1 ∧
      g'.currentTurnIdx = 0 ∧
      (∀ uid, g'.isElim uid = g.isElim uid) ∧
      (∀ uid, g'.roleOf uid = g.roleOf uid) ∧
      preservesRWE g g' ∧
      (∀ p', p' ∈ g'.players → p'.hasSpoken = false ∧ p'.hasVoted = false ∧
        p'.voteTarget = none ∧ p'.description = none)) ∧
    (∃ g', Game.resetAfterMrWhiteGuessF fuel g false = some g') := by
  have hnp : g.state ≠ GameState.playing := by simp [hst]
  have hpe := prepare_eval g fuel none hnp hf
  refine ⟨?_, ?_, ?_⟩
  · unfold Game.resetAfterMrWhiteGuessF
    simp only [if_true]
  · intro g' hg
    unfold Game.resetAfterMrWhiteGuessF at hg
    simp only [Bool.false_eq_true, if_false] at hg
    rw [hpe] at hg
    injection hg with h2
    subst h2
    refine ⟨?_, ?_, ?_, ?_, ?_, ?_⟩
    · rw [(checkWinCondition_frame _).2.2.1]
    · rw [(checkWinCondition_frame _).2.1]
      rfl
    · intro uid
      unfold Game.isElim Game.findPlayer
      rw [checkWinCondition_players _]
      simp only []
      rw [find?_map_userId g.players clearRound uid (fun p => rfl)]
      cases g.players.find? (fun p => p.userId == uid) <;> rfl
    · intro uid
      unfold Game.roleOf Game.findPlayer
      rw [checkWinCondition_players _]
      simp only []
      rw [find?_map_userId g.players clearRound uid (fun p => rfl)]
      cases g.players.find? (fun p => p.userId == uid) <;> rfl
    · exact preservesRWE_of_players_map g _ clearRound (checkWinCondition_players _)
        (fun p => rfl) (fun p => rfl) (fun p => rfl) (fun p => rfl)
    · intro p' hp'
      rw [checkWinCondition_players _] at hp'
      rcases List.mem_map.mp hp' with ⟨p, _, rfl⟩
      exact ⟨rfl, rfl, rfl, rfl⟩
  · exact ⟨_, by
      unfold Game.resetAfterMrWhiteGuessF
      simp only [Bool.false_eq_true, if_false]
      exact hpe⟩

/-- Witness for C9 at a concrete Mr.-White-guessing session. -/
theorem c9_resolveGuess_witness :
    Game.resetAfterMrWhiteGuessF 1 gC9w true = some { gC9w with state := GameState.gameOver } ∧
    (∃ g', Game.resetAfterMrWhiteGuessF 1 gC9w false = some g') :=
  ⟨(c9_resolveGuess gC9w 1 rfl (by omega)).1, (c9_resolveGuess gC9w 1 rfl (by omega)).2.2⟩

theorem countAlive_spec (l : List Player) (acc : Nat × Nat × Nat) :
    l.foldl
      (fun acc p =>
        if !p.eliminated then
          match p.role with
          | some Role.civilian => (acc.1 + 1, acc.2.1, acc.2.2)
          | some Role.undercover => (acc.1, acc.2.1 + 1, acc.2.2)
          | some Role.mrWhite => (acc.1, acc.2.1, acc.2.2 + 1)
          | none => acc
        else acc) acc =
    (acc.1 + (l.filter (fun p => !p.eliminated && (p.role == some Role.civilian))).length,
     acc.2.1 + (l.filter (fun p => !p.eliminated && (p.role == some Role.undercover))).length,
     acc.2.2 + (l.filter (fun p => !p.eliminated && (p.role == some Role.mrWhite))).length) := by
  induction l generalizing acc with
  | nil => simp
  | cons p t ih =>
    rw [List.foldl_cons, ih]
    rw [List.filter_cons, List.filter_cons, List.filter_cons]
    cases he : p.eliminated with
    | true => simp [he]
    | false =>
      cases hr : p.role with
      | none => simp [he, hr]
      | some r =>
        cases r <;> simp [he, hr, Prod.ext_iff] <;> omega

theorem countAlive_livingRoleCount (g : Game) :
    countAlive g.players =
      (g.livingRoleCount Role.civilian,
       g.livingRoleCount Role.undercover,
       g.livingRoleCount Role.mrWhite) := by
  have h := countAlive_spec g.players (0, 0, 0)
  unfold countAlive Game.livingRoleCount
  simpa using h

/-- C7: check_win_condition counts living participants per role and behaves
exactly as specified: one living Mr. White plus exactly one other living
participant forces MrWhiteGuessing with no winner; otherwise zero living
civilians, or living undercover + Mr. White at least the living civilians,
makes the undercover faction win with GameOver; otherwise zero living
undercover and zero living Mr. White makes the civilians win with GameOver;
otherwise no winner is reported and the state is left untouched. -/
theorem c7_checkWinCondition (g : Game) :
    (g.livingRoleCount Role.mrWhite = 1 ∧
        g.livingRoleCount Role.civilian + g.livingRoleCount Role.undercover = 1 →
      Game.checkWinCondition g = (none, { g with state := GameState.mrWhiteGuessing })) ∧
    (¬(g.livingRoleCount Role.mrWhite = 1 ∧
        g.livingRoleCount Role.civilian + g.livingRoleCount Role.undercover = 1) →
      (g.livingRoleCount Role.civilian = 0 ∨
        g.livingRoleCount Role.undercover + g.livingRoleCount Role.mrWhite ≥
          g.livingRoleCount Role.civilian) →
      Game.checkWinCondition g = (some Role.undercover, { g with state := GameState.gameOver })) ∧
    (¬(g.livingRoleCount Role.mrWhite = 1 ∧
        g.livingRoleCount Role.civilian + g.livingRoleCount Role.undercover = 1) →
      ¬(g.livingRoleCount Role.civilian = 0 ∨
        g.livingRoleCount Role.undercover + g.livingRoleCount Role.mrWhite ≥
          g.livingRoleCount Role.civilian) →
      g.livingRoleCount Role.undercover = 0 ∧ g.livingRoleCount Role.mrWhite = 0 →
      Game.checkWinCondition g = (some Role.civilian, { g with state := GameState.gameOver })) ∧
    (¬(g.livingRoleCount Role.mrWhite = 1 ∧
        g.livingRoleCount Role.civilian + g.livingRoleCount Role.undercover = 1) →
      ¬(g.livingRoleCount Role.civilian = 0 ∨
        g.livingRoleCount Role.undercover + g.livingRoleCount Role.mrWhite ≥
          g.livingRoleCount Role.civilian) →
      ¬(g.livingRoleCount Role.undercover = 0 ∧ g.livingRoleCount Role.mrWhite = 0) →
      Game.checkWinCondition g = (none, g)) := by
  have hca := countAlive_livingRoleCount g
  refine ⟨?_, ?_, ?_, ?_⟩
  · intro h1
    unfold Game.checkWinCondition
    rw [hca]
    rw [if_pos (by simpa using h1)]
  · intro h1 h2
    unfold Game.checkWinCondition
    rw [hca]
    rw [if_neg (by simpa using h1), if_pos (by simpa using h2)]
  · intro h1 h2 h3
    unfold Game.checkWinCondition
    rw [hca]
    rw [if_neg (by simpa using h1), if_neg (by simpa using h2), if_pos (by simpa using h3)]
  · intro h1 h2 h3
    unfold Game.checkWinCondition
    rw [hca]
    rw [if_neg (by simpa using h1), if_neg (by simpa using h2), if_neg (by simpa using h3)]

/-- Witness for C7 at a concrete session where the undercover faction has
caught up with the civilians. -/
theorem c7_checkWinCondition_witness :
    Game.checkWinCondition gC7w = (some Role.undercover, { gC7w with state := GameState.gameOver }) :=
  (c7_checkWinCondition gC7w).2.1 (by decide) (by decide)

theorem bump_lookup (l : List (Nat × Nat)) (t x : Nat) :
    lookupCount (bump l t) x = if x = t then lookupCount l x + 1 else lookupCount l x := by
  induction l with
  | nil =>
    unfold bump lookupCount
    by_cases hxt : x = t
    · subst hxt
      simp [List.find?]
    · have hb : (t == x) = false := beq_eq_false_iff_ne.mpr (fun h => hxt h.symm)
      simp [List.find?, hb, hxt]
  | cons kv rest ih =>
    obtain ⟨k, v⟩ := kv
    by_cases hk : k = t
    · subst hk
      unfold bump
      rw [if_pos rfl]
      by_cases hxk : x = k
      · subst hxk
        simp [lookupCount, List.find?]
      · have hb : (k == x) = false := beq_eq_false_iff_ne.mpr (fun h => hxk h.symm)
        simp [lookupCount, List.find?, hb, hxk]
    · unfold bump
      rw [if_neg hk]
      by_cases hxk : x = k
      · subst hxk
        have hxt : ¬x = t := hk
        simp [lookupCount, List.find?, hxt]
      · have hb : (k == x) = false := beq_eq_false_iff_ne.mpr (fun h => hxk h.symm)
        simp only [lookupCount, List.find?, hb] at ih ⊢
        exact ih

theorem bump_keys (l : List (Nat × Nat)) (t : Nat) :
    (bump l t).map Prod.fst =
      if t ∈ l.map Prod.fst then l.map Prod.fst else l.map Prod.fst ++ [t] := by
  induction l with
  | nil => simp [bump]
  | cons kv rest ih =>
    obtain ⟨k, v⟩ := kv
    by_cases hk : k = t
    · subst hk
      unfold bump
      rw [if_pos rfl]
      have hmem : k ∈ ((k, v) :: rest).map Prod.fst := by simp
      rw [if_pos hmem]
      simp
    · unfold bump
      rw [if_neg hk]
      have hne : ¬t = k := fun h => hk h.symm
      by_cases hmem : t ∈ rest.map Prod.fst
      · have hmem2 : t ∈ ((k, v) :: rest).map Prod.fst := by simp [hmem]
        rw [if_pos hmem2]
        simp only [List.map_cons]
        rw [ih, if_pos hmem]
      · have hmem2 : ¬t ∈ ((k, v) :: rest).map Prod.fst := by simp [hmem, hne]
        rw [if_neg hmem2]
        simp only [List.map_cons]
        rw [ih, if_neg hmem]
        simp

theorem tally_go_lookup (l : List Player) (acc : List (Nat × Nat)) (t : Nat) :
    lookupCount
      (l.foldl
        (fun acc p =>
          if !p.eliminated && p.hasVoted && p.voteTarget.isSome then
            bump acc (p.voteTarget.getD 0)
          else acc)
        acc) t =
      lookupCount acc t +
        l.countP (fun p => !p.eliminated && p.hasVoted && (p.voteTarget == some t)) := by
  induction l generalizing acc with
  | nil => simp
  | cons p rest ih =>
    rw [List.foldl_cons, List.countP_cons]
    cases he : p.eliminated with
    | true =>
      simp only [he, Bool.not_true, Bool.false_and, Bool.and_false, Bool.false_and,
        Bool.false_eq_true, if_false]
      rw [ih]
      omega
    | false =>
      cases hv : p.hasVoted with
      | false =>
        simp only [he, hv, Bool.not_false, Bool.true_and, Bool.and_false, Bool.false_and,
          Bool.false_eq_true, if_false]
        rw [ih]
        omega
      | true =>
        cases hvt : p.voteTarget with
        | none =>
          simp only [he, hv, hvt, Bool.not_false, Bool.true_and, Option.isSome_none,
            Bool.and_false, Bool.false_eq_true, if_false]
          rw [ih]
          simp
        | some u =>
          simp only [he, hv, hvt, Bool.not_false, Bool.true_and, Option.isSome_some,
            Bool.and_true, if_true, Option.getD_some]
          rw [ih, bump_lookup]
          by_cases htu : t = u
          · subst htu
            simp only [beq_iff_eq, if_pos rfl]
            simp
            omega
          · have hb : (some u == some t) = false := by
              simp only [beq_eq_false_iff_ne, ne_eq, Option.some.injEq]
              exact fun h => htu h.symm
            rw [if_neg htu, hb]
            simp

theorem entry_lookup (l : List (Nat × Nat)) (k v : Nat)
    (hmem : (k, v) ∈ l) (hnd : (l.map Prod.fst).Nodup) :
    lookupCount l k = v := by
  induction l with
  | nil => simp at hmem
  | cons kv rest ih =>
    obtain ⟨k0, v0⟩ := kv
    rw [List.map_cons, List.nodup_cons] at hnd
    rcases List.mem_cons.mp hmem with h | h
    · injection h with h1 h2
      subst h1
      subst h2
      simp [lookupCount, List.find?]
    · have hk : ¬k0 = k := by
        intro he
        apply hnd.1
        rw [he]
        exact List.mem_map.mpr ⟨(k, v), h, rfl⟩
      have hb : (k0 == k) = false := beq_eq_false_iff_ne.mpr hk
      simp only [lookupCount, List.find?, hb]
      exact ih h hnd.2

theorem tally_go_nodup (l : List Player) (acc : List (Nat × Nat))
    (h : (acc.map Prod.fst).Nodup) :
    ((l.foldl
        (fun acc p =>
          if !p.eliminated && p.hasVoted && p.voteTarget.isSome then
            bump acc (p.voteTarget.getD 0)
          else acc)
        acc).map Prod.fst).Nodup := by
  induction l generalizing acc with
  | nil => exact h
  | cons p rest ih =>
    rw [List.foldl_cons]
    by_cases hc : (!p.eliminated && p.hasVoted && p.voteTarget.isSome) = true
    · rw [if_pos hc]
      apply ih
      rw [bump_keys]
      by_cases hm : (p.voteTarget.getD 0) ∈ acc.map Prod.fst
      · rw [if_pos hm]
        exact h
      · rw [if_neg hm]
        simp [List.nodup_append, h, hm]
    · rw [if_neg hc]
      exact ih acc h

theorem lookup_pos_mem (l : List (Nat × Nat)) (t : Nat) (h : 1 ≤ lookupCount l t) :
    (t, lookupCount l t) ∈ l := by
  unfold lookupCount at h ⊢
  cases hf : l.find? (fun kv => kv.1 == t) with
  | none => rw [hf] at h; simp at h
  | some kv =>
    obtain ⟨k1, v1⟩ := kv
    have hk : k1 = t := by simpa using List.find?_some hf
    have hm : (k1, v1) ∈ l := List.mem_of_find?_eq_some hf
    subst hk
    simpa using hm

theorem tallyVotes_lookup (g : Game) (t : Nat) :
    lookupCount (tallyVotes g.players) t = g.votesFor t := by
  have h := tally_go_lookup g.players [] t
  simpa [tallyVotes, Game.votesFor, lookupCount] using h

theorem tallyVotes_nodup (g : Game) : ((tallyVotes g.players).map Prod.fst).Nodup :=
  tally_go_nodup g.players [] (by simp)

theorem tallyVotes_entry (g : Game) (kv : Nat × Nat) (h : kv ∈ tallyVotes g.players) :
    kv.2 = g.votesFor kv.1 := by
  obtain ⟨k, v⟩ := kv
  have := entry_lookup (tallyVotes g.players) k v h (tallyVotes_nodup g)
  rw [tallyVotes_lookup] at this
  exact this.symm

theorem tallyVotes_mem_of_pos (g : Game) (t : Nat) (h : 1 ≤ g.votesFor t) :
    (t, g.votesFor t) ∈ tallyVotes g.players := by
  have hl := tallyVotes_lookup g t
  have hm := lookup_pos_mem (tallyVotes g.players) t (by rw [hl]; exact h)
  rwa [hl] at hm

theorem msc_fst (es : List (Nat × Nat)) (mx : Nat) (acc : List Nat) :
    (maxVoteScan es mx acc).1 = es.foldl (fun m kv => max m kv.2) mx := by
  induction es generalizing mx acc with
  | nil => rfl
  | cons kv rest ih =>
    obtain ⟨k, v⟩ := kv
    unfold maxVoteScan
    rw [List.foldl_cons]
    by_cases h1 : v > mx
    · rw [if_pos h1, ih]
      congr 1
      omega
    · rw [if_neg h1]
      by_cases h2 : v = mx
      · rw [if_pos h2, ih]
        congr 1
        omega
      · rw [if_neg h2, ih]
        congr 1
        omega

theorem foldl_max_ge_init (es : List (Nat × Nat)) (mx : Nat) :
    mx ≤ es.foldl (fun m kv => max m kv.2) mx := by
  induction es generalizing mx with
  | nil => exact Nat.le_refl mx
  | cons kv rest ih =>
    rw [List.foldl_cons]
    exact le_trans (le_max_left _ _) (ih _)

theorem foldl_max_le (M : Nat) : ∀ (es : List (Nat × Nat)), (∀ kv ∈ es, kv.2 ≤ M) →
    ∀ mx, mx ≤ M → es.foldl (fun m kv => max m kv.2) mx ≤ M := by
  intro es
  induction es with
  | nil => intro _ mx h1; exact h1
  | cons kv rest ih =>
    intro h2 mx h1
    rw [List.foldl_cons]
    exact ih (fun kv' h => h2 kv' (List.mem_cons_of_mem _ h)) _
      (max_le h1 (h2 kv (List.mem_cons_self _ _)))

theorem msc_all_lt : ∀ (es : List (Nat × Nat)) (mx : Nat) (acc : List Nat),
    (∀ kv ∈ es, kv.2 < mx) → maxVoteScan es mx acc = (mx, acc) := by
  intro es
  induction es with
  | nil => intro mx acc _; rfl
  | cons kv rest ih =>
    intro mx acc h
    obtain ⟨k, v⟩ := kv
    have hv : v < mx := h (k, v) (List.mem_cons_self _ _)
    unfold maxVoteScan
    rw [if_neg (by omega), if_neg (by omega)]
    exact ih mx acc (fun kv' hm => h kv' (List.mem_cons_of_mem _ hm))

theorem msc_unique : ∀ (es : List (Nat × Nat)) (mx : Nat) (acc : List Nat) (t vt : Nat),
    (es.map Prod.fst).Nodup → (t, vt) ∈ es →
    (∀ kv ∈ es, kv.1 ≠ t → kv.2 < vt) → mx < vt →
    maxVoteScan es mx acc = (vt, [t]) := by
  intro es
  induction es with
  | nil => intro mx acc t vt _ hmem _ _; simp at hmem
  | cons kv rest ih =>
    intro mx acc t vt hnd hmem ho hmx
    obtain ⟨k, v⟩ := kv
    rw [List.map_cons, List.nodup_cons] at hnd
    by_cases hkt : k = t
    · subst hkt
      have hv : v = vt := by
        rcases List.mem_cons.mp hmem with h | h
        · injection h with h1 h2
          exact h2.symm
        · exact absurd (List.mem_map.mpr ⟨(k, vt), h, rfl⟩) hnd.1
      subst hv
      unfold maxVoteScan
      rw [if_pos (by omega)]
      apply msc_all_lt
      intro kv' hm
      apply ho kv' (List.mem_cons_of_mem _ hm)
      intro hkk
      exact hnd.1 (hkk ▸ List.mem_map.mpr ⟨kv', hm, rfl⟩)
    · have hmem' : (t, vt) ∈ rest := by
        rcases List.mem_cons.mp hmem with h | h
        · injection h with h1 h2
          exact absurd h1.symm hkt
        · exact h
      have hv : v < vt := ho (k, v) (List.mem_cons_self _ _) hkt
      unfold maxVoteScan
      by_cases h1 : v > mx
      · rw [if_pos h1]
        exact ih v [k] t vt hnd.2 hmem'
          (fun kv' hm hne => ho kv' (List.mem_cons_of_mem _ hm) hne) (by omega)
      · rw [if_neg h1]
        by_cases h2 : v = mx
        · rw [if_pos h2]
          exact ih mx (acc ++ [k]) t vt hnd.2 hmem'
            (fun kv' hm hne => ho kv' (List.mem_cons_of_mem _ hm) hne) hmx
        · rw [if_neg h2]
          exact ih mx acc t vt hnd.2 hmem'
            (fun kv' hm hne => ho kv' (List.mem_cons_of_mem _ hm) hne) hmx

theorem msc_acc_sub : ∀ (es : List (Nat × Nat)) (mx : Nat) (acc : List Nat),
    (maxVoteScan es mx acc).1 = mx → ∀ x ∈ acc, x ∈ (maxVoteScan es mx acc).2 := by
  intro es
  induction es with
  | nil => intro mx acc _ x hx; exact hx
  | cons kv rest ih =>
    intro mx acc hfst x hx
    obtain ⟨k, v⟩ := kv
    unfold maxVoteScan at hfst ⊢
    by_cases h1 : v > mx
    · rw [if_pos h1] at hfst ⊢
      have hge : v ≤ (maxVoteScan rest v [k]).1 := by
        rw [msc_fst]
        exact foldl_max_ge_init rest v
      omega
    · rw [if_neg h1] at hfst ⊢
      by_cases h2 : v = mx
      · rw [if_pos h2] at hfst ⊢
        exact ih mx (acc ++ [k]) hfst x (List.mem_append_left _ hx)
      · rw [if_neg h2] at hfst ⊢
        exact ih mx acc hfst x hx

theorem msc_mem : ∀ (es : List (Nat × Nat)) (mx : Nat) (acc : List Nat) (k v : Nat),
    (k, v) ∈ es → v = (maxVoteScan es mx acc).1 → k ∈ (maxVoteScan es mx acc).2 := by
  intro es
  induction es with
  | nil => intro mx acc k v h _; simp at h
  | cons kv rest ih =>
    intro mx acc k v hmem hv
    obtain ⟨k0, v0⟩ := kv
    unfold maxVoteScan at hv ⊢
    rcases List.mem_cons.mp hmem with h | h
    · injection h with h1 h2
      subst h1
      subst h2
      by_cases h1 : v > mx
      · rw [if_pos h1] at hv ⊢
        exact msc_acc_sub rest v [k] hv.symm k (by simp)
      · rw [if_neg h1] at hv ⊢
        by_cases h2 : v = mx
        · rw [if_pos h2] at hv ⊢
          exact msc_acc_sub rest mx (acc ++ [k]) (h2 ▸ hv).symm k (by simp)
        · rw [if_neg h2] at hv ⊢
          have hge : mx ≤ (maxVoteScan rest mx acc).1 := by
            rw [msc_fst]
            exact foldl_max_ge_init _ _
          omega
    · by_cases h1 : v0 > mx
      · rw [if_pos h1] at hv ⊢
        exact ih v0 [k0] k v h hv
      · rw [if_neg h1] at hv ⊢
        by_cases h2 : v0 = mx
        · rw [if_pos h2] at hv ⊢
          exact ih mx (acc ++ [k0]) k v h hv
        · rw [if_neg h2] at hv ⊢
          exact ih mx acc k v h hv

theorem msc_sound : ∀ (es : List (Nat × Nat)) (mx : Nat) (acc : List Nat) (k : Nat),
    k ∈ (maxVoteScan es mx acc).2 →
    (k ∈ acc ∧ (maxVoteScan es mx acc).1 = mx) ∨
      ∃ v, (k, v) ∈ es ∧ v = (maxVoteScan es mx acc).1 := by
  intro es
  induction es with
  | nil => intro mx acc k h; exact Or.inl ⟨h, rfl⟩
  | cons kv rest ih =>
    intro mx acc k h
    obtain ⟨k0, v0⟩ := kv
    unfold maxVoteScan at h ⊢
    by_cases h1 : v0 > mx
    · rw [if_pos h1] at h ⊢
      rcases ih v0 [k0] k h with ⟨hin, hfst⟩ | ⟨v, hv, hfst⟩
      · have hk : k = k0 := by simpa using hin
        refine Or.inr ⟨v0, ?_, ?_⟩
        · rw [hk]
          exact List.mem_cons_self _ _
        · exact hfst.symm
      · exact Or.inr ⟨v, List.mem_cons_of_mem _ hv, hfst⟩
    · rw [if_neg h1] at h ⊢
      by_cases h2 : v0 = mx
      · rw [if_pos h2] at h ⊢
        rcases ih mx (acc ++ [k0]) k h with ⟨hin, hfst⟩ | ⟨v, hv, hfst⟩
        · rcases List.mem_append.mp hin with hin | hin
          · exact Or.inl ⟨hin, hfst⟩
          · have hk : k = k0 := by simpa using hin
            refine Or.inr ⟨v0, ?_, ?_⟩
            · rw [hk]
              exact List.mem_cons_self _ _
            · rw [hfst, h2]
        · exact Or.inr ⟨v, List.mem_cons_of_mem _ hv, hfst⟩
      · rw [if_neg h2] at h ⊢
        rcases ih mx acc k h with ⟨hin, hfst⟩ | ⟨v, hv, hfst⟩
        · exact Or.inl ⟨hin, hfst⟩
        · exact Or.inr ⟨v, List.mem_cons_of_mem _ hv, hfst⟩

theorem mem_le_foldl_max : ∀ (es : List (Nat × Nat)) (mx : Nat) (kv : Nat × Nat),
    kv ∈ es → kv.2 ≤ es.foldl (fun m kv => max m kv.2) mx := by
  intro es
  induction es with
  | nil => intro mx kv h; simp at h
  | cons a rest ih =>
    intro mx kv h
    rw [List.foldl_cons]
    rcases List.mem_cons.mp h with h | h
    · subst h
      exact le_trans (le_max_right _ _) (foldl_max_ge_init rest _)
    · exact ih _ kv h

theorem scan_unique (g : Game) (t : Nat)
    (hpos : 1 ≤ g.votesFor t) (hmax : ∀ x, x ≠ t → g.votesFor x < g.votesFor t) :
    maxVoteScan (tallyVotes g.players) 0 [] = (g.votesFor t, [t]) := by
  apply msc_unique _ 0 [] t (g.votesFor t) (tallyVotes_nodup g) (tallyVotes_mem_of_pos g t hpos)
  · intro kv hm hne
    rw [tallyVotes_entry g kv hm]
    exact hmax kv.1 hne
  · omega

theorem scan_max_fst (g : Game) (t : Nat) (M : Nat) (hM : g.votesFor t = M) (h1 : 1 ≤ M)
    (hle : ∀ x, g.votesFor x ≤ M) :
    (maxVoteScan (tallyVotes g.players) 0 []).1 = M := by
  rw [msc_fst]
  apply le_antisymm
  · apply foldl_max_le M
    · intro kv hm
      rw [tallyVotes_entry g kv hm]
      exact hle kv.1
    · omega
  · have hmem := tallyVotes_mem_of_pos g t (by omega)
    rw [hM] at hmem
    exact mem_le_foldl_max (tallyVotes g.players) 0 (t, M) hmem

theorem scan_max_mem (g : Game) (t : Nat) (M : Nat) (hM : g.votesFor t = M) (h1 : 1 ≤ M)
    (hle : ∀ x, g.votesFor x ≤ M) :
    t ∈ (maxVoteScan (tallyVotes g.players) 0 []).2 := by
  have hmem := tallyVotes_mem_of_pos g t (by omega)
  rw [hM] at hmem
  exact msc_mem (tallyVotes g.players) 0 [] t M hmem (scan_max_fst g t M hM h1 hle).symm

theorem scan_sound_votes (g : Game) (k : Nat)
    (h : k ∈ (maxVoteScan (tallyVotes g.players) 0 []).2) :
    g.votesFor k = (maxVoteScan (tallyVotes g.players) 0 []).1 := by
  rcases msc_sound (tallyVotes g.players) 0 [] k h with ⟨hin, _⟩ | ⟨v, hv, hfst⟩
  · simp at hin
  · have := tallyVotes_entry g (k, v) hv
    simp only [] at this
    rw [← hfst, ← this]

theorem two_le_length (l : List Nat) (a b : Nat) (ha : a ∈ l) (hb : b ∈ l) (hne : a ≠ b) :
    2 ≤ l.length := by
  cases l with
  | nil => simp at ha
  | cons x xs =>
    rcases List.mem_cons.mp ha with h1 | h1
    · rcases List.mem_cons.mp hb with h2 | h2
      · exact absurd (h1.trans h2.symm) hne
      · have := List.length_pos.mpr (List.ne_nil_of_mem h2)
        simp only [List.length_cons]
        omega
    · have := List.length_pos.mpr (List.ne_nil_of_mem h1)
      simp only [List.length_cons]
      omega

theorem findPlayer_of_hasPlayer (g : Game) (x : Nat) (h : g.hasPlayer x = true) :
    ∃ p, g.findPlayer x = some p := by
  rcases (hasPlayer_exists g x).mp h with ⟨p, hp, hpu⟩
  unfold Game.findPlayer
  cases hf : g.players.find? (fun q => q.userId == x) with
  | some q => exact ⟨q, rfl⟩
  | none =>
    rw [List.find?_eq_none] at hf
    exact absurd (by simp [hpu]) (hf p hp)

theorem isElim_update_self (g : Game) (e : Nat) (hep : ∃ p, g.findPlayer e = some p) :
    (g.updatePlayer e (fun p => { p with eliminated := true })).isElim e = true := by
  obtain ⟨p, hp⟩ := hep
  unfold Game.isElim
  rw [findPlayer_update g e (fun p => { p with eliminated := true }) e (fun p => rfl),
    if_pos rfl, hp]
  rfl

theorem isElim_update_other (g : Game) (e x : Nat) (hx : x ≠ e) :
    (g.updatePlayer e (fun p => { p with eliminated := true })).isElim x = g.isElim x := by
  unfold Game.isElim
  rw [findPlayer_update g e (fun p => { p with eliminated := true }) x (fun p => rfl),
    if_neg hx]

theorem isElim_eq_of_players_eq (g g' : Game) (h : g'.players = g.players) (x : Nat) :
    g'.isElim x = g.isElim x := by
  unfold Game.isElim Game.findPlayer
  rw [h]

theorem isElim_eq_of_players_clearRound (g g' : Game)
    (h : g'.players = g.players.map clearRound) (x : Nat) :
    g'.isElim x = g.isElim x := by
  unfold Game.isElim Game.findPlayer
  rw [h, find?_map_userId g.players clearRound x (fun p => rfl)]
  cases g.players.find? (fun p => p.userId == x) <;> rfl

theorem resolveVotes_with_elim (g : Game) (fuel : Nat) (rand : List Nat → Nat) (e : Nat)
    (hst : g.state = GameState.voting) (hf : 1 ≤ fuel)
    (he0 : e ≠ 0) (hep : g.hasPlayer e = true)
    (hne : (maxVoteScan (tallyVotes g.players) 0 []).2 ≠ [])
    (hsel : ((maxVoteScan (tallyVotes g.players) 0 []).2.length = 1 ∧
             (maxVoteScan (tallyVotes g.players) 0 []).2.headD 0 = e) ∨
            ((maxVoteScan (tallyVotes g.players) 0 []).2.length ≠ 1 ∧
             g.settings.tiebreaker = "random" ∧
             rand ((maxVoteScan (tallyVotes g.players) 0 []).2) = e)) :
    ∃ r g', Game.resolveVotesF fuel g rand = some (r, g') ∧
      g'.isElim e = true ∧ (∀ x, x ≠ e → g'.isElim x = g.isElim x) := by
  have hstu : (g.updatePlayer e fun p => { p with eliminated := true }).state ≠
      GameState.playing := by
    show g.state ≠ GameState.playing
    rw [hst]
    intro hc
    simp at hc
  have helims := isElim_update_self g e (findPlayer_of_hasPlayer g e hep)
  have helimo := isElim_update_other g e
  unfold Game.resolveVotesF
  rw [if_pos hst]
  simp only []
  rw [if_neg hne]
  have helim : (if (maxVoteScan (tallyVotes g.players) 0 []).2.length = 1 then
      some ((maxVoteScan (tallyVotes g.players) 0 []).2.headD 0)
    else if g.settings.tiebreaker = "random" then
      some (rand ((maxVoteScan (tallyVotes g.players) 0 []).2))
    else none) = some e := by
    rcases hsel with ⟨h1, h2⟩ | ⟨h1, h2, h3⟩
    · rw [if_pos h1, h2]
    · rw [if_neg h1, if_pos h2, h3]
  rw [helim]
  dsimp only
  rw [if_pos he0]
  by_cases hmw :
      (g.updatePlayer e fun p => { p with eliminated := true }).roleOf e = some Role.mrWhite
  · rw [if_pos hmw]
    refine ⟨_, _, rfl, ?_, ?_⟩
    · exact (isElim_eq_of_players_eq _ _ rfl e).trans helims
    · intro x hx
      exact (isElim_eq_of_players_eq _ _ rfl x).trans (helimo x hx)
  · rw [if_neg hmw]
    by_cases hrem :
        (g.updatePlayer e fun p => { p with eliminated := true }).getAlivePlayers.length = 2
    · rw [if_pos hrem]
      cases hfind : (g.updatePlayer e fun p =>
          { p with eliminated := true }).getAlivePlayers.find?
            (fun p => decide (p.role = some Role.mrWhite)) with
      | some mwp =>
        refine ⟨_, _, rfl, ?_, ?_⟩
        · exact (isElim_eq_of_players_eq _ _ rfl e).trans helims
        · intro x hx
          exact (isElim_eq_of_players_eq _ _ rfl x).trans (helimo x hx)
      | none =>
        rw [prepare_eval (g.updatePlayer e fun p => { p with eliminated := true })
          fuel (some e) hstu hf]
        refine ⟨_, _, rfl, ?_, ?_⟩
        · refine (isElim_eq_of_players_clearRound _ _ ?_ e).trans helims
          rw [checkWinCondition_players]
        · intro x hx
          refine (isElim_eq_of_players_clearRound _ _ ?_ x).trans (helimo x hx)
          rw [checkWinCondition_players]
    · rw [if_neg hrem]
      rw [prepare_eval (g.updatePlayer e fun p => { p with eliminated := true })
        fuel (some e) hstu hf]
      refine ⟨_, _, rfl, ?_, ?_⟩
      · refine (isElim_eq_of_players_clearRound _ _ ?_ e).trans helims
        rw [checkWinCondition_players]
      · intro x hx
        refine (isElim_eq_of_players_clearRound _ _ ?_ x).trans (helimo x hx)
        rw [checkWinCondition_players]

theorem tally_no_votes (l : List Player) (acc : List (Nat × Nat))
    (h : ∀ p ∈ l, p.hasVoted = false) :
    l.foldl
      (fun acc p =>
        if !p.eliminated && p.hasVoted && p.voteTarget.isSome then
          bump acc (p.voteTarget.getD 0)
        else acc)
      acc = acc := by
  induction l generalizing acc with
  | nil => rfl
  | cons p rest ih =>
    rw [List.foldl_cons]
    have hp := h p (List.mem_cons_self _ _)
    rw [if_neg (by simp [hp])]
    exact ih acc (fun q hq => h q (List.mem_cons_of_mem _ hq))

theorem resolveVotes_no_votes (g : Game) (fuel : Nat) (rand : List Nat → Nat)
    (hst : g.state = GameState.voting)
    (hnv : ∀ p ∈ g.players, p.hasVoted = false) :
    Game.resolveVotesF fuel g rand = some (none, g) := by
  have htally : tallyVotes g.players = [] := tally_no_votes g.players [] hnv
  unfold Game.resolveVotesF
  rw [if_pos hst]
  simp only []
  rw [htally]
  rfl

theorem resolveVotes_tie_none (g : Game) (fuel : Nat) (rand : List Nat → Nat)
    (t1 t2 M : Nat)
    (hst : g.state = GameState.voting)
    (htb : g.settings.tiebreaker = "none")
    (hne12 : t1 ≠ t2) (hM1 : g.votesFor t1 = M) (hM2 : g.votesFor t2 = M) (hMpos : 1 ≤ M)
    (hle : ∀ x, g.votesFor x ≤ M) :
    Game.resolveVotesF fuel g rand = some (none, g) := by
  have hm1 := scan_max_mem g t1 M hM1 hMpos hle
  have hm2 := scan_max_mem g t2 M hM2 hMpos hle
  have hlen := two_le_length _ t1 t2 hm1 hm2 hne12
  unfold Game.resolveVotesF
  rw [if_pos hst]
  simp only []
  rw [if_neg (by intro hc; rw [hc] at hm1; simp at hm1)]
  rw [if_neg (by omega)]
  rw [if_neg (by rw [htb]; decide)]

theorem votesFor_pos_props (g : Game) (t : Nat)
    (hwf : ∀ p ∈ g.players, ∀ u, p.voteTarget = some u → u ≠ 0 ∧ g.hasPlayer u = true)
    (h : 1 ≤ g.votesFor t) : t ≠ 0 ∧ g.hasPlayer t = true := by
  unfold Game.votesFor at h
  have h0 : 0 < g.players.countP
      (fun p => !p.eliminated && p.hasVoted && (p.voteTarget == some t)) := h
  obtain ⟨p, hp, hpred⟩ := List.countP_pos_iff.mp h0
  have hvt : p.voteTarget = some t := by
    have h2 := (Bool.and_eq_true _ _).mp hpred
    simpa using h2.2
  exact hwf p hp t hvt

theorem rnd0_mem : ∀ l : List Nat, l ≠ [] → rnd0 l ∈ l := by
  intro l hl
  cases l with
  | nil => exact absurd rfl hl
  | cons a rest => simp [rnd0]

/-- C6: vote resolution in the voting state.  With no votes cast, resolveVotes
reports no elimination and changes nothing.  With a unique maximum-vote holder,
exactly that participant becomes eliminated.  With two or more participants tied
at the maximum: tiebreak "none" eliminates nobody and changes nothing, while
tiebreak "random" eliminates exactly one participant drawn (by the supplied
choice function) from the tied set. -/
theorem c6_resolveVotes_tally (g : Game) (fuel : Nat) (rand : List Nat → Nat)
    (hst : g.state = GameState.voting) (hf : 1 ≤ fuel)
    (hwf : ∀ p ∈ g.players, ∀ u, p.voteTarget = some u → u ≠ 0 ∧ g.hasPlayer u = true)
    (hrand : ∀ l, l ≠ [] → rand l ∈ l) :
    ((∀ p ∈ g.players, p.hasVoted = false) →
      Game.resolveVotesF fuel g rand = some (none, g)) ∧
    (∀ t, 1 ≤ g.votesFor t → (∀ x, x ≠ t → g.votesFor x < g.votesFor t) →
      ∃ r g', Game.resolveVotesF fuel g rand = some (r, g') ∧
        g'.isElim t = true ∧ (∀ x, x ≠ t → g'.isElim x = g.isElim x)) ∧
    (∀ t1 t2 M, g.settings.tiebreaker = "none" → t1 ≠ t2 →
      g.votesFor t1 = M → g.votesFor t2 = M → 1 ≤ M → (∀ x, g.votesFor x ≤ M) →
      Game.resolveVotesF fuel g rand = some (none, g)) ∧
    (∀ t1 t2 M, g.settings.tiebreaker = "random" → t1 ≠ t2 →
      g.votesFor t1 = M → g.votesFor t2 = M → 1 ≤ M → (∀ x, g.votesFor x ≤ M) →
      ∃ c r g', Game.resolveVotesF fuel g rand = some (r, g') ∧
        g.votesFor c = M ∧
        g'.isElim c = true ∧ (∀ x, x ≠ c → g'.isElim x = g.isElim x)) := by
  refine ⟨?_, ?_, ?_, ?_⟩
  · intro hnv
    exact resolveVotes_no_votes g fuel rand hst hnv
  · intro t hpos hmax
    have hprops := votesFor_pos_props g t hwf hpos
    have hscan := scan_unique g t hpos hmax
    refine resolveVotes_with_elim g fuel rand t hst hf hprops.1 hprops.2 ?_ ?_
    · rw [hscan]
      simp
    · left
      rw [hscan]
      exact ⟨rfl, rfl⟩
  · intro t1 t2 M htb hne12 hM1 hM2 hMpos hle
    exact resolveVotes_tie_none g fuel rand t1 t2 M hst htb hne12 hM1 hM2 hMpos hle
  · intro t1 t2 M htb hne12 hM1 hM2 hMpos hle
    have hm1 := scan_max_mem g t1 M hM1 hMpos hle
    have hm2 := scan_max_mem g t2 M hM2 hMpos hle
    have hlen := two_le_length _ t1 t2 hm1 hm2 hne12
    have hnil : (maxVoteScan (tallyVotes g.players) 0 []).2 ≠ [] := by
      intro hc
      rw [hc] at hm1
      simp at hm1
    have hcmem := hrand _ hnil
    have hcv : g.votesFor (rand ((maxVoteScan (tallyVotes g.players) 0 []).2)) = M := by
      rw [scan_sound_votes g _ hcmem]
      exact scan_max_fst g t1 M hM1 hMpos hle
    have hprops := votesFor_pos_props g
      (rand ((maxVoteScan (tallyVotes g.players) 0 []).2)) hwf (by rw [hcv]; omega)
    obtain ⟨r, g', hres, helim, hother⟩ :=
      resolveVotes_with_elim g fuel rand (rand ((maxVoteScan (tallyVotes g.players) 0 []).2))
        hst hf hprops.1 hprops.2 hnil
        (Or.inr ⟨by omega, htb, rfl⟩)
    exact ⟨rand ((maxVoteScan (tallyVotes g.players) 0 []).2), r, g', hres, hcv, helim, hother⟩

/-- Witness for C6 at four concrete voting sessions: no votes (gC6a), a unique
maximum (gC6b), a tie under tiebreak "none" (gC6c) and a tie under tiebreak
"random" (gC6d). -/
theorem c6_resolveVotes_tally_witness :
    Game.resolveVotesF 1 gC6a rnd0 = some (none, gC6a) ∧
    (∃ r g', Game.resolveVotesF 1 gC6b rnd0 = some (r, g') ∧
      g'.isElim 3 = true ∧ (∀ x, x ≠ 3 → g'.isElim x = gC6b.isElim x)) ∧
    Game.resolveVotesF 1 gC6c rnd0 = some (none, gC6c) ∧
    (∃ c r g', Game.resolveVotesF 1 gC6d rnd0 = some (r, g') ∧
      gC6d.votesFor c = 2 ∧ g'.isElim c = true ∧
      (∀ x, x ≠ c → g'.isElim x = gC6d.isElim x)) := by
  have hwfa : ∀ p ∈ gC6a.players, ∀ u, p.voteTarget = some u →
      u ≠ 0 ∧ gC6a.hasPlayer u = true := by
    intro p hp u hvt
    fin_cases hp <;> simp [mkP] at hvt
  have hwfb : ∀ p ∈ gC6b.players, ∀ u, p.voteTarget = some u →
      u ≠ 0 ∧ gC6b.hasPlayer u = true := by
    intro p hp u hvt
    fin_cases hp <;> simp [mkP] at hvt <;> (subst hvt; decide)
  have hwfc : ∀ p ∈ gC6c.players, ∀ u, p.voteTarget = some u →
      u ≠ 0 ∧ gC6c.hasPlayer u = true := by
    intro p hp u hvt
    fin_cases hp <;> simp [mkP] at hvt <;> (subst hvt; decide)
  have hwfd : ∀ p ∈ gC6d.players, ∀ u, p.voteTarget = some u →
      u ≠ 0 ∧ gC6d.hasPlayer u = true := by
    intro p hp u hvt
    fin_cases hp <;> simp [mkP] at hvt <;> (subst hvt; decide)
  have hformb : ∀ x, gC6b.votesFor x = if x = 3 then 3 else if x = 1 then 1 else 0 := by
    intro x
    by_cases h3 : x = 3
    · subst h3; decide
    · by_cases h1 : x = 1
      · subst h1
        rw [if_neg (by omega)]
        decide
      · rw [if_neg h3, if_neg h1]
        have e3 : ((some 3 : Option Nat) == some x) = false := by
          simp only [beq_eq_false_iff_ne, ne_eq, Option.some.injEq]
          exact fun h => h3 h.symm
        have e1 : ((some 1 : Option Nat) == some x) = false := by
          simp only [beq_eq_false_iff_ne, ne_eq, Option.some.injEq]
          exact fun h => h1 h.symm
        show (gC6b.players.countP
          (fun p => !p.eliminated && p.hasVoted && (p.voteTarget == some x))) = 0
        simp [gC6b, mkP, List.countP_cons, e3, e1]
  have hformcd : ∀ x, (List.countP
        (fun p => !p.eliminated && p.hasVoted && (p.voteTarget == some x))
        [mkP 1 (some Role.civilian) false true true (some 2),
         mkP 2 (some Role.undercover) false true true (some 1),
         mkP 3 (some Role.civilian) false true true (some 2),
         mkP 4 (some Role.civilian) false true true (some 1)]) =
      if x = 2 then 2 else if x = 1 then 2 else 0 := by
    intro x
    by_cases h2 : x = 2
    · subst h2; decide
    · by_cases h1 : x = 1
      · subst h1
        rw [if_neg (by omega)]
        decide
      · rw [if_neg h2, if_neg h1]
        have e2 : ((some 2 : Option Nat) == some x) = false := by
          simp only [beq_eq_false_iff_ne, ne_eq, Option.some.injEq]
          exact fun h => h2 h.symm
        have e1 : ((some 1 : Option Nat) == some x) = false := by
          simp only [beq_eq_false_iff_ne, ne_eq, Option.some.injEq]
          exact fun h => h1 h.symm
        simp [mkP, List.countP_cons, e2, e1]
  refine ⟨?_, ?_, ?_, ?_⟩
  · exact (c6_resolveVotes_tally gC6a 1 rnd0 rfl (by omega) hwfa rnd0_mem).1 (by decide)
  · refine (c6_resolveVotes_tally gC6b 1 rnd0 rfl (by omega) hwfb rnd0_mem).2.1 3
      (by decide) ?_
    intro x hx
    rw [hformb x, hformb 3]
    rw [if_neg hx, if_pos rfl]
    by_cases h1 : x = 1
    · rw [if_pos h1]; omega
    · rw [if_neg h1]; omega
  · refine (c6_resolveVotes_tally gC6c 1 rnd0 rfl (by omega) hwfc rnd0_mem).2.2.1 2 1 2
      rfl (by omega) (by decide) (by decide) (by omega) ?_
    intro x
    have := hformcd x
    show (gC6c.players.countP
      (fun p => !p.eliminated && p.hasVoted && (p.voteTarget == some x))) ≤ 2
    rw [show gC6c.players = [mkP 1 (some Role.civilian) false true true (some 2),
         mkP 2 (some Role.undercover) false true true (some 1),
         mkP 3 (some Role.civilian) false true true (some 2),
         mkP 4 (some Role.civilian) false true true (some 1)] from rfl, this]
    split
    · omega
    split <;> omega
  · refine (c6_resolveVotes_tally gC6d 1 rnd0 rfl (by omega) hwfd rnd0_mem).2.2.2 2 1 2
      rfl (by omega) (by decide) (by decide) (by omega) ?_
    intro x
    have := hformcd x
    show (gC6d.players.countP
      (fun p => !p.eliminated && p.hasVoted && (p.voteTarget == some x))) ≤ 2
    rw [show gC6d.players = [mkP 1 (some Role.civilian) false true true (some 2),
         mkP 2 (some Role.undercover) false true true (some 1),
         mkP 3 (some Role.civilian) false true true (some 2),
         mkP 4 (some Role.civilian) false true true (some 1)] from rfl, this]
    split
    · omega
    split <;> omega

/-- C8 counterexample: the claim asserts that after a tie with tiebreak "none"
the round replays with roundNumber unchanged; on the concrete session gC8x
(round 3, a 2-2 tie), resolveVotes indeed reports no elimination and leaves the
session untouched, but the round replay performed by the vote handler calls
_prepare_next_round, which increments roundNumber to 4. -/
theorem c8_tie_roundNumber_counterexample :
    Game.resolveVotesF 1 gC8x rnd0 = some (none, gC8x) ∧
    gC8x.roundNumber = 3 ∧
    (Game.prepareNextRoundF 1 gC8x none).map Game.roundNumber = some 4 := by
  exact ⟨by decide, rfl, by decide⟩

theorem countVotes_form_2211 (x : Nat) :
    (List.countP (fun p => !p.eliminated && p.hasVoted && (p.voteTarget == some x))
      [mkP 1 (some Role.civilian) false true true (some 2),
       mkP 2 (some Role.undercover) false true true (some 1),
       mkP 3 (some Role.civilian) false true true (some 2),
       mkP 4 (some Role.civilian) false true true (some 1)]) =
    if x = 2 then 2 else if x = 1 then 2 else 0 := by
  by_cases h2 : x = 2
  · subst h2; decide
  · by_cases h1 : x = 1
    · subst h1
      rw [if_neg (by omega)]
      decide
    · rw [if_neg h2, if_neg h1]
      have e2 : ((some 2 : Option Nat) == some x) = false := by
        simp only [beq_eq_false_iff_ne, ne_eq, Option.some.injEq]
        exact fun h => h2 h.symm
      have e1 : ((some 1 : Option Nat) == some x) = false := by
        simp only [beq_eq_false_iff_ne, ne_eq, Option.some.injEq]
        exact fun h => h1 h.symm
      simp [mkP, List.countP_cons, e2, e1]

/-- C8 amended: when the vote ends in a tie among two or more maximum-vote
targets and tiebreak is "none", resolveVotes reports no elimination and leaves
the session unchanged, and the round replay run by the handler
(_prepare_next_round with no eliminated id) carries a roundNumber one greater
than the round in which the tie occurred. -/
theorem c8_tie_replay_increments_round (g : Game) (fuel : Nat) (rand : List Nat → Nat)
    (t1 t2 M : Nat)
    (hst : g.state = GameState.voting) (hf : 1 ≤ fuel)
    (htb : g.settings.tiebreaker = "none") (hne12 : t1 ≠ t2)
    (hM1 : g.votesFor t1 = M) (hM2 : g.votesFor t2 = M) (hMpos : 1 ≤ M)
    (hle : ∀ x, g.votesFor x ≤ M) :
    Game.resolveVotesF fuel g rand = some (none, g) ∧
    (∃ g', Game.prepareNextRoundF fuel g none = some g' ∧
      g'.roundNumber = g.roundNumber + 1) := by
  refine ⟨resolveVotes_tie_none g fuel rand t1 t2 M hst htb hne12 hM1 hM2 hMpos hle, ?_⟩
  have hpe := prepare_eval g fuel none (by simp [hst]) hf
  exact ⟨_, hpe, by rw [(checkWinCondition_frame _).2.2.1]⟩

/-- Witness for C8 amended at the concrete tied session gC8x. -/
theorem c8_tie_replay_increments_round_witness :
    Game.resolveVotesF 1 gC8x rnd0 = some (none, gC8x) ∧
    (∃ g', Game.prepareNextRoundF 1 gC8x none = some g' ∧
      g'.roundNumber = gC8x.roundNumber + 1) := by
  apply c8_tie_replay_increments_round gC8x 1 rnd0 2 1 2 rfl (by omega) rfl (by omega)
    (by decide) (by decide) (by omega)
  intro x
  show (gC8x.players.countP
    (fun p => !p.eliminated && p.hasVoted && (p.voteTarget == some x))) ≤ 2
  rw [show gC8x.players = [mkP 1 (some Role.civilian) false true true (some 2),
       mkP 2 (some Role.undercover) false true true (some 1),
       mkP 3 (some Role.civilian) false true true (some 2),
       mkP 4 (some Role.civilian) false true true (some 1)] from rfl,
     countVotes_form_2211 x]
  split
  · omega
  split <;> omega

theorem assignSlot_settings (g : Game) (ids : List Nat) (r : Role) (w : Option String) (i : Nat) :
    (assignSlot g ids r w i).settings = g.settings := by
  unfold assignSlot
  cases ids[i]? <;> rfl

theorem assignRange_settings (ids : List Nat) (r : Role) (w : Option String) :
    ∀ (len lo : Nat) (g : Game), (assignRange g ids lo len r w).settings = g.settings := by
  intro len
  induction len with
  | zero => intro lo g; rfl
  | succ n ih =>
    intro lo g
    show (assignRange g ids lo (n + 1) r w).settings = g.settings
    unfold assignRange
    rw [List.range'_succ, List.foldl_cons]
    have hih := ih (lo + 1) (assignSlot g ids r w lo)
    unfold assignRange at hih
    rw [hih, assignSlot_settings]

theorem assignRange_players (ids : List Nat) (hnd : ids.Nodup) (r : Role) (w : Option String) :
    ∀ (len lo : Nat) (g : Game),
    (assignRange g ids lo len r w).players =
      g.players.map (fun p =>
        if p.userId ∈ ids ∧ lo ≤ ids.indexOf p.userId ∧ ids.indexOf p.userId < lo + len
        then { p with role := some r, word := w } else p) := by
  intro len
  induction len with
  | zero =>
    intro lo g
    show g.players = _
    symm
    have h : ∀ p ∈ g.players,
        (if p.userId ∈ ids ∧ lo ≤ ids.indexOf p.userId ∧ ids.indexOf p.userId < lo + 0
         then { p with role := some r, word := w } else p) = id p := by
      intro p _
      rw [if_neg]
      · rfl
      · rintro ⟨_, h2, h3⟩
        omega
    rw [List.map_congr_left h, List.map_id]
  | succ n ih =>
    intro lo g
    show (assignRange g ids lo (n + 1) r w).players = _
    unfold assignRange
    rw [List.range'_succ, List.foldl_cons]
    have hih := ih (lo + 1) (assignSlot g ids r w lo)
    unfold assignRange at hih
    rw [hih]
    cases hlo : ids[lo]? with
    | none =>
      have hg : assignSlot g ids r w lo = g := by
        unfold assignSlot
        rw [hlo]
      rw [hg]
      apply List.map_congr_left
      intro p _
      have hlen : ids.length ≤ lo := by
        by_contra hc
        push_neg at hc
        rw [List.getElem?_eq_getElem hc] at hlo
        exact absurd hlo (by simp)
      by_cases hmem : p.userId ∈ ids
      · have hj : ids.indexOf p.userId < ids.length := List.indexOf_lt_length.mpr hmem
        rw [if_neg (by rintro ⟨_, h2, _⟩; omega), if_neg (by rintro ⟨_, h2, _⟩; omega)]
      · rw [if_neg (fun hc => hmem hc.1), if_neg (fun hc => hmem hc.1)]
    | some uid0 =>
      have hlolt : lo < ids.length := by
        by_contra hc
        push_neg at hc
        rw [List.getElem?_eq_none hc] at hlo
        exact absurd hlo (by simp)
      have hgetlo : ids[lo] = uid0 := by
        rw [List.getElem?_eq_getElem hlolt] at hlo
        injection hlo
      have hidz : ids.indexOf uid0 = lo := by
        rw [← hgetlo]
        exact List.indexOf_getElem hnd lo hlolt
      have huid0mem : uid0 ∈ ids := by
        rw [← hgetlo]
        exact List.getElem_mem hlolt
      have hg : assignSlot g ids r w lo =
          g.updatePlayer uid0 (fun p => { p with role := some r, word := w }) := by
        unfold assignSlot
        rw [hlo]
      rw [hg]
      show ((g.players.map _).map _) = _
      rw [List.map_map]
      apply List.map_congr_left
      intro p _
      simp only [Function.comp]
      by_cases hpu : p.userId = uid0
      · have hb : (p.userId == uid0) = true := by simp [hpu]
        rw [if_pos hb]
        rw [if_neg]
        · symm
          rw [if_pos ⟨hpu ▸ huid0mem, by rw [hpu, hidz], by rw [hpu, hidz]; omega⟩]
        · rintro ⟨_, h2, _⟩
          rw [show ({ p with role := some r, word := w } : Player).userId = p.userId from rfl,
            hpu, hidz] at h2
          omega
      · have hb : (p.userId == uid0) = false := by simp [hpu]
        have hupd : (if (p.userId == uid0) = true
            then ({ p with role := some r, word := w } : Player) else p) = p := by
          rw [hb]
          simp
        rw [hupd]
        have hjne : p.userId ∈ ids → ids.indexOf p.userId ≠ lo := by
          intro hm hc
          apply hpu
          exact (List.indexOf_inj hm huid0mem).mp (hc.trans hidz.symm)
        by_cases hmem : p.userId ∈ ids
        · have hne := hjne hmem
          by_cases hrange : lo + 1 ≤ ids.indexOf p.userId ∧ ids.indexOf p.userId < lo + 1 + n
          · rw [if_pos ⟨hmem, hrange.1, hrange.2⟩, if_pos ⟨hmem, by omega, by omega⟩]
          · rw [if_neg (by rintro ⟨_, h2, h3⟩; exact hrange ⟨h2, h3⟩)]
            rw [if_neg (by rintro ⟨_, h2, h3⟩; exact hrange ⟨by omega, by omega⟩)]
        · rw [if_neg (fun hc => hmem hc.1), if_neg (fun hc => hmem hc.1)]

theorem countP_indexOf : ∀ (l : List Nat), l.Nodup → ∀ (Q : Nat → Bool),
    l.countP (fun x => Q (l.indexOf x)) = ((List.range l.length).filter Q).length := by
  intro l
  induction l with
  | nil => intro _ Q; rfl
  | cons a t ih =>
    intro hnd Q
    rw [List.nodup_cons] at hnd
    rw [List.countP_cons]
    have hcong : t.countP (fun x => Q (List.indexOf x (a :: t))) =
        t.countP (fun x => Q (List.indexOf x t + 1)) := by
      apply List.countP_congr
      intro x hx
      have hxa : a ≠ x := fun h => hnd.1 (h ▸ hx)
      rw [List.indexOf_cons_ne _ hxa]
    have hih := ih hnd.2 (fun j => Q (j + 1))
    simp only [] at hih
    rw [hcong, hih, List.indexOf_cons_self]
    show _ + _ = ((List.range (t.length + 1)).filter Q).length
    rw [List.range_succ_eq_map, List.filter_cons, List.filter_map]
    have hc : ∀ r : List Nat,
        (List.filter (Q ∘ Nat.succ) r) = (List.filter (fun j => Q (j + 1)) r) := by
      intro r
      apply List.filter_congr
      intro x _
      rfl
    by_cases hQ0 : Q 0 = true
    · simp [hQ0, hc]
    · simp [hQ0, hc]

theorem range_filter_lt_length (k : Nat) :
    ∀ n, ((List.range n).filter (fun j => decide (j < k))).length = min k n := by
  intro n
  induction n with
  | zero => simp
  | succ m ih =>
    rw [List.range_succ, List.filter_append, List.length_append, ih]
    by_cases h : m < k
    · have hone : (List.filter (fun j => decide (j < k)) [m]).length = 1 := by simp [h]
      rw [hone]
      omega
    · have hzero : (List.filter (fun j => decide (j < k)) [m]).length = 0 := by simp [h]
      rw [hzero]
      omega

theorem range_filter_band_length (a b : Nat) :
    ∀ n, ((List.range n).filter
      (fun j => !(decide (j < a)) && decide (j < b))).length = min b n - min a n := by
  intro n
  induction n with
  | zero => simp
  | succ m ih =>
    rw [List.range_succ, List.filter_append, List.length_append, ih]
    by_cases ha : m < a
    · have hzero : (List.filter (fun j => !(decide (j < a)) && decide (j < b)) [m]).length = 0 := by
        simp [ha]
      rw [hzero]
      omega
    · by_cases hb : m < b
      · have hone : (List.filter (fun j => !(decide (j < a)) && decide (j < b)) [m]).length = 1 := by
          simp [ha, hb]
        rw [hone]
        omega
      · have hzero : (List.filter
            (fun j => !(decide (j < a)) && decide (j < b)) [m]).length = 0 := by
          simp [ha, hb]
        rw [hzero]
        omega

theorem range_filter_not_lt_length (k : Nat) :
    ∀ n, ((List.range n).filter (fun j => !(decide (j < k)))).length = n - min k n := by
  intro n
  induction n with
  | zero => simp
  | succ m ih =>
    rw [List.range_succ, List.filter_append, List.length_append, ih]
    by_cases h : m < k
    · have hzero : (List.filter (fun j => !(decide (j < k))) [m]).length = 0 := by simp [h]
      rw [hzero]
      omega
    · have hone : (List.filter (fun j => !(decide (j < k))) [m]).length = 1 := by simp [h]
      rw [hone]
      omega

theorem composed_assign_char (ids : List Nat) (civ uc n : Nat) (w1 w2 : String)
    (hlen : ids.length = n) (hle : civ + uc ≤ n) (p : Player) (hmem : p.userId ∈ ids) :
    (fun q => if q.userId ∈ ids ∧ civ + uc ≤ ids.indexOf q.userId ∧
         ids.indexOf q.userId < civ + uc + (n - (civ + uc))
       then { q with role := some Role.mrWhite, word := none } else q)
    ((fun q => if q.userId ∈ ids ∧ civ ≤ ids.indexOf q.userId ∧
         ids.indexOf q.userId < civ + uc
       then { q with role := some Role.undercover, word := some w2 } else q)
    ((fun q => if q.userId ∈ ids ∧ 0 ≤ ids.indexOf q.userId ∧ ids.indexOf q.userId < 0 + civ
       then { q with role := some Role.civilian, word := some w1 } else q) p)) =
    (if ids.indexOf p.userId < civ then
       { p with role := some Role.civilian, word := some w1 }
     else if ids.indexOf p.userId < civ + uc then
       { p with role := some Role.undercover, word := some w2 }
     else { p with role := some Role.mrWhite, word := none }) := by
  have hj : ids.indexOf p.userId < n := hlen ▸ List.indexOf_lt_length.mpr hmem
  dsimp only
  by_cases h1 : ids.indexOf p.userId < civ
  · have e1 : (if p.userId ∈ ids ∧ 0 ≤ ids.indexOf p.userId ∧ ids.indexOf p.userId < 0 + civ
        then { p with role := some Role.civilian, word := some w1 } else p) =
        { p with role := some Role.civilian, word := some w1 } :=
      if_pos ⟨hmem, by omega, by omega⟩
    rw [e1]
    have e2 : (if ({ p with role := some Role.civilian, word := some w1 } : Player).userId ∈ ids ∧
        civ ≤ ids.indexOf ({ p with role := some Role.civilian, word := some w1 } : Player).userId ∧
        ids.indexOf ({ p with role := some Role.civilian, word := some w1 } : Player).userId < civ + uc
        then { ({ p with role := some Role.civilian, word := some w1 } : Player) with
          role := some Role.undercover, word := some w2 }
        else ({ p with role := some Role.civilian, word := some w1 } : Player)) =
        ({ p with role := some Role.civilian, word := some w1 } : Player) :=
      if_neg (by
        rintro ⟨_, h2, _⟩
        rw [show ({ p with role := some Role.civilian, word := some w1 } : Player).userId =
          p.userId from rfl] at h2
        omega)
    rw [e2]
    rw [if_neg (by
      rintro ⟨_, h2, _⟩
      rw [show ({ p with role := some Role.civilian, word := some w1 } : Player).userId =
        p.userId from rfl] at h2
      omega)]
    rw [if_pos h1]
  · have e1 : (if p.userId ∈ ids ∧ 0 ≤ ids.indexOf p.userId ∧ ids.indexOf p.userId < 0 + civ
        then { p with role := some Role.civilian, word := some w1 } else p) = p :=
      if_neg (by rintro ⟨_, _, h3⟩; omega)
    rw [e1]
    by_cases h2 : ids.indexOf p.userId < civ + uc
    · have e2 : (if p.userId ∈ ids ∧ civ ≤ ids.indexOf p.userId ∧
          ids.indexOf p.userId < civ + uc
          then { p with role := some Role.undercover, word := some w2 } else p) =
          { p with role := some Role.undercover, word := some w2 } :=
        if_pos ⟨hmem, by omega, h2⟩
      rw [e2]
      rw [if_neg (by
        rintro ⟨_, h3, _⟩
        rw [show ({ p with role := some Role.undercover, word := some w2 } : Player).userId =
          p.userId from rfl] at h3
        omega)]
      rw [if_neg h1, if_pos h2]
    · have e2 : (if p.userId ∈ ids ∧ civ ≤ ids.indexOf p.userId ∧
          ids.indexOf p.userId < civ + uc
          then { p with role := some Role.undercover, word := some w2 } else p) = p :=
        if_neg (by rintro ⟨_, _, h3⟩; omega)
      rw [e2]
      rw [if_pos ⟨hmem, by omega, by omega⟩]
      rw [if_neg h1, if_neg h2]

theorem autoSettings_eq (s : Settings) (n : Nat) (coin : Bool) (hciv : s.civilianCount = 0) :
    autoSettings s n coin =
      { s with
        civilianCount := if n = 3 then 2 else if n = 4 then 2 else if n ≤ 6 then n - 3 else n - 4,
        undercoverCount :=
          if n = 3 then (if coin then 1 else 0) else if n = 4 then 1 else 2,
        mrWhiteCount :=
          if n = 3 then (if coin then 0 else 1) else if n = 4 then 1
          else if n ≤ 6 then 1 else 2 } := by
  unfold autoSettings
  rw [if_pos hciv]
  split_ifs <;> rfl

theorem startGame_succeeds (g : Game) (pairs : List WordPair) (coin : Bool) (pair : WordPair)
    (ids order : List Nat) (hn : 3 ≤ g.players.length) (hp : pairs ≠ []) :
    (g.startGame pairs coin pair ids order).1 = true := by
  unfold Game.startGame
  rw [if_neg (by omega), if_neg hp]

theorem startGame_settings (g : Game) (pairs : List WordPair) (coin : Bool) (pair : WordPair)
    (ids order : List Nat) (hn : 3 ≤ g.players.length) (hp : pairs ≠ []) :
    (g.startGame pairs coin pair ids order).2.settings =
      autoSettings g.settings g.players.length coin := by
  unfold Game.startGame
  rw [if_neg (by omega), if_neg hp]
  dsimp only
  rw [assignRange_settings, assignRange_settings, assignRange_settings]

theorem startGame_players_char (g : Game) (pairs : List WordPair) (coin : Bool) (pair : WordPair)
    (ids order : List Nat) (hn : 3 ≤ g.players.length) (hp : pairs ≠ [])
    (hnd : ids.Nodup)
    (hmemall : ∀ p ∈ g.players, p.userId ∈ ids)
    (hlen : ids.length = g.players.length)
    (hle : (autoSettings g.settings g.players.length coin).civilianCount +
           (autoSettings g.settings g.players.length coin).undercoverCount ≤ g.players.length) :
    (g.startGame pairs coin pair ids order).2.players = g.players.map (fun p =>
      if ids.indexOf p.userId < (autoSettings g.settings g.players.length coin).civilianCount then
        { p with role := some Role.civilian, word := some pair.civilian }
      else if ids.indexOf p.userId <
          (autoSettings g.settings g.players.length coin).civilianCount +
          (autoSettings g.settings g.players.length coin).undercoverCount then
        { p with role := some Role.undercover, word := some pair.undercover }
      else { p with role := some Role.mrWhite, word := none }) := by
  unfold Game.startGame
  rw [if_neg (by omega), if_neg hp]
  dsimp only
  rw [assignRange_players ids hnd, assignRange_players ids hnd, assignRange_players ids hnd]
  dsimp only
  rw [List.map_map, List.map_map]
  apply List.map_congr_left
  intro p hpmem
  exact composed_assign_char ids
    (autoSettings g.settings g.players.length coin).civilianCount
    (autoSettings g.settings g.players.length coin).undercoverCount
    g.players.length pair.civilian pair.undercover hlen hle p (hmemall p hpmem)

/-- C2 counterexample: the claim asserts automatic role distribution is used
exactly when all three manual counts are zero; on the concrete four-player
session gC2x the manual counts are (civilian 0, undercover 5, mrWhite 0) --
not all zero -- yet start_game applies the automatic distribution anyway
(its trigger is civilian_count == 0 alone) and overwrites the counts with
the four-player table row (2, 1, 1). -/
theorem c2_auto_distribution_counterexample :
    gC2x.settings.undercoverCount ≠ 0 ∧
    (gC2x.startGame [⟨"A", "B"⟩] true ⟨"A", "B"⟩ [1, 2, 3, 4] [1, 2, 3, 4]).1 = true ∧
    (gC2x.startGame [⟨"A", "B"⟩] true ⟨"A", "B"⟩ [1, 2, 3, 4] [1, 2, 3, 4]).2.settings.civilianCount = 2 ∧
    (gC2x.startGame [⟨"A", "B"⟩] true ⟨"A", "B"⟩ [1, 2, 3, 4] [1, 2, 3, 4]).2.settings.undercoverCount = 1 ∧
    (gC2x.startGame [⟨"A", "B"⟩] true ⟨"A", "B"⟩ [1, 2, 3, 4] [1, 2, 3, 4]).2.settings.mrWhiteCount = 1 := by
  refine ⟨by decide, ?_, ?_, ?_, ?_⟩ <;> rfl

/-- C2 (corrected): for a session with at least three participants and a
nonempty word-pair source, start_game succeeds; the automatic distribution is
applied exactly when the manual civilian count is zero (the claim's "all
three manual counts are zero" is wrong: the other two counts are ignored by
the trigger, see the counterexample), and then the stored counts follow the
table (n=3: 2 civilians plus, by coin flip, 1 undercover or 1 Mr. White;
n=4: 2/1/1; 5<=n<=6: n-3/2/1; n>=7: n-4/2/2), the three counts sum to n,
exactly that many participants hold each role, and each participant's word is
the civilian word iff civilian, the undercover word iff undercover, and
absent iff Mr. White. -/
theorem c2_auto_distribution (g : Game) (pairs : List WordPair) (coin : Bool) (pair : WordPair)
    (shuffledIds shuffledOrder : List Nat)
    (hn : 3 ≤ g.players.length) (hp : pairs ≠ [])
    (hperm : shuffledIds.Perm (g.players.map Player.userId))
    (hnd : shuffledIds.Nodup)
    (b : Bool) (g' : Game)
    (hrun : g.startGame pairs coin pair shuffledIds shuffledOrder = (b, g')) :
    b = true ∧
    (g.settings.civilianCount ≠ 0 → g'.settings = g.settings) ∧
    (g.settings.civilianCount = 0 →
      g'.settings.civilianCount + g'.settings.undercoverCount + g'.settings.mrWhiteCount =
        g.players.length ∧
      (g.players.length = 3 → g'.settings.civilianCount = 2 ∧
        g'.settings.undercoverCount = (if coin then 1 else 0) ∧
        g'.settings.mrWhiteCount = (if coin then 0 else 1)) ∧
      (g.players.length = 4 → g'.settings.civilianCount = 2 ∧
        g'.settings.undercoverCount = 1 ∧ g'.settings.mrWhiteCount = 1) ∧
      (5 ≤ g.players.length → g.players.length ≤ 6 →
        g'.settings.civilianCount = g.players.length - 3 ∧
        g'.settings.undercoverCount = 2 ∧ g'.settings.mrWhiteCount = 1) ∧
      (7 ≤ g.players.length →
        g'.settings.civilianCount = g.players.length - 4 ∧
        g'.settings.undercoverCount = 2 ∧ g'.settings.mrWhiteCount = 2) ∧
      g'.roleCount Role.civilian = g'.settings.civilianCount ∧
      g'.roleCount Role.undercover = g'.settings.undercoverCount ∧
      g'.roleCount Role.mrWhite = g'.settings.mrWhiteCount ∧
      (∀ q ∈ g'.players,
        (q.role = some Role.civilian ∧ q.word = some pair.civilian) ∨
        (q.role = some Role.undercover ∧ q.word = some pair.undercover) ∨
        (q.role = some Role.mrWhite ∧ q.word = none))) := by
  have hg2 : (g.startGame pairs coin pair shuffledIds shuffledOrder).2 = g' := by rw [hrun]
  have hb : (g.startGame pairs coin pair shuffledIds shuffledOrder).1 = b := by rw [hrun]
  subst hg2
  subst hb
  have hset := startGame_settings g pairs coin pair shuffledIds shuffledOrder hn hp
  refine ⟨startGame_succeeds g pairs coin pair shuffledIds shuffledOrder hn hp, ?_, ?_⟩
  · intro hciv'
    rw [hset]
    unfold autoSettings
    rw [if_neg hciv']
  · intro hciv
    obtain ⟨A, hA⟩ : ∃ A, autoSettings g.settings g.players.length coin = A := ⟨_, rfl⟩
    have htab := autoSettings_eq g.settings g.players.length coin hciv
    rw [hA] at hset htab
    have hlen : shuffledIds.length = g.players.length := by
      rw [hperm.length_eq, List.length_map]
    have hsum : A.civilianCount + A.undercoverCount + A.mrWhiteCount = g.players.length := by
      rw [htab]
      dsimp only
      split_ifs <;> omega
    have hle : A.civilianCount + A.undercoverCount ≤ g.players.length := by omega
    have hmemall : ∀ p ∈ g.players, p.userId ∈ shuffledIds := fun p hp' =>
      hperm.mem_iff.mpr (List.mem_map_of_mem Player.userId hp')
    have hplayers := startGame_players_char g pairs coin pair shuffledIds shuffledOrder hn hp
      hnd hmemall hlen (hA ▸ hle)
    rw [hA] at hplayers
    refine ⟨by rw [hset]; exact hsum, ?_, ?_, ?_, ?_, ?_, ?_, ?_, ?_⟩
    · intro h3
      rw [hset, htab]
      refine ⟨by simp [h3], by simp [h3], by simp [h3]⟩
    · intro h4
      rw [hset, htab]
      refine ⟨by simp [h4], by simp [h4], by simp [h4]⟩
    · intro h5 h6
      rw [hset, htab]
      refine ⟨?_, ?_, ?_⟩ <;> dsimp only
      · rw [if_neg (by omega), if_neg (by omega), if_pos h6]
      · rw [if_neg (by omega), if_neg (by omega)]
      · rw [if_neg (by omega), if_neg (by omega), if_pos h6]
    · intro h7
      rw [hset, htab]
      refine ⟨?_, ?_, ?_⟩ <;> dsimp only
      · rw [if_neg (by omega), if_neg (by omega), if_neg (by omega)]
      · rw [if_neg (by omega), if_neg (by omega)]
      · rw [if_neg (by omega), if_neg (by omega), if_neg (by omega)]
    · rw [hset]
      have s1 : ((g.startGame pairs coin pair shuffledIds shuffledOrder).2.players.filter
          (fun p => p.role == some Role.civilian)).length =
          (g.players.map (fun p =>
            if shuffledIds.indexOf p.userId < A.civilianCount then
              { p with role := some Role.civilian, word := some pair.civilian }
            else if shuffledIds.indexOf p.userId < A.civilianCount + A.undercoverCount then
              { p with role := some Role.undercover, word := some pair.undercover }
            else { p with role := some Role.mrWhite, word := none })).countP
            (fun p => p.role == some Role.civilian) := by
        rw [hplayers, ← List.countP_eq_length_filter]
      have s2 : (g.players.map (fun p =>
            if shuffledIds.indexOf p.userId < A.civilianCount then
              { p with role := some Role.civilian, word := some pair.civilian }
            else if shuffledIds.indexOf p.userId < A.civilianCount + A.undercoverCount then
              { p with role := some Role.undercover, word := some pair.undercover }
            else { p with role := some Role.mrWhite, word := none })).countP
            (fun p => p.role == some Role.civilian) =
          g.players.countP
            ((fun u => decide (shuffledIds.indexOf u < A.civilianCount)) ∘ Player.userId) := by
        rw [List.countP_map]
        refine List.countP_congr ?_
        intro x _
        dsimp only [Function.comp]
        by_cases h1 : shuffledIds.indexOf x.userId < A.civilianCount
        · simp [h1]
        · by_cases h2 : shuffledIds.indexOf x.userId < A.civilianCount + A.undercoverCount
          · simp [h1, h2]
          · simp [h1, h2]
      have s3 : g.players.countP
            ((fun u => decide (shuffledIds.indexOf u < A.civilianCount)) ∘ Player.userId) =
          (g.players.map Player.userId).countP
            (fun u => decide (shuffledIds.indexOf u < A.civilianCount)) :=
        (List.countP_map _ _ _).symm
      have s4 : (g.players.map Player.userId).countP
            (fun u => decide (shuffledIds.indexOf u < A.civilianCount)) =
          shuffledIds.countP (fun u => decide (shuffledIds.indexOf u < A.civilianCount)) :=
        (hperm.countP_eq _).symm
      have s5 : shuffledIds.countP (fun u => decide (shuffledIds.indexOf u < A.civilianCount)) =
          ((List.range shuffledIds.length).filter
            (fun j => decide (j < A.civilianCount))).length :=
        countP_indexOf shuffledIds hnd (fun j => decide (j < A.civilianCount))
      have s6 : ((List.range shuffledIds.length).filter
            (fun j => decide (j < A.civilianCount))).length = A.civilianCount := by
        rw [range_filter_lt_length, hlen]
        omega
      exact ((((s1.trans s2).trans s3).trans s4).trans s5).trans s6
    · rw [hset]
      have s1 : ((g.startGame pairs coin pair shuffledIds shuffledOrder).2.players.filter
          (fun p => p.role == some Role.undercover)).length =
          (g.players.map (fun p =>
            if shuffledIds.indexOf p.userId < A.civilianCount then
              { p with role := some Role.civilian, word := some pair.civilian }
            else if shuffledIds.indexOf p.userId < A.civilianCount + A.undercoverCount then
              { p with role := some Role.undercover, word := some pair.undercover }
            else { p with role := some Role.mrWhite, word := none })).countP
            (fun p => p.role == some Role.undercover) := by
        rw [hplayers, ← List.countP_eq_length_filter]
      have s2 : (g.players.map (fun p =>
            if shuffledIds.indexOf p.userId < A.civilianCount then
              { p with role := some Role.civilian, word := some pair.civilian }
            else if shuffledIds.indexOf p.userId < A.civilianCount + A.undercoverCount then
              { p with role := some Role.undercover, word := some pair.undercover }
            else { p with role := some Role.mrWhite, word := none })).countP
            (fun p => p.role == some Role.undercover) =
          g.players.countP
            ((fun u => !(decide (shuffledIds.indexOf u < A.civilianCount)) &&
              decide (shuffledIds.indexOf u < A.civilianCount + A.undercoverCount)) ∘
              Player.userId) := by
        rw [List.countP_map]
        refine List.countP_congr ?_
        intro x _
        dsimp only [Function.comp]
        by_cases h1 : shuffledIds.indexOf x.userId < A.civilianCount
        · simp [h1]
        · by_cases h2 : shuffledIds.indexOf x.userId < A.civilianCount + A.undercoverCount
          · simp [h1, h2]
          · simp [h1, h2]
      have s3 : g.players.countP
            ((fun u => !(decide (shuffledIds.indexOf u < A.civilianCount)) &&
              decide (shuffledIds.indexOf u < A.civilianCount + A.undercoverCount)) ∘
              Player.userId) =
          (g.players.map Player.userId).countP
            (fun u => !(decide (shuffledIds.indexOf u < A.civilianCount)) &&
              decide (shuffledIds.indexOf u < A.civilianCount + A.undercoverCount)) :=
        (List.countP_map _ _ _).symm
      have s4 : (g.players.map Player.userId).countP
            (fun u => !(decide (shuffledIds.indexOf u < A.civilianCount)) &&
              decide (shuffledIds.indexOf u < A.civilianCount + A.undercoverCount)) =
          shuffledIds.countP
            (fun u => !(decide (shuffledIds.indexOf u < A.civilianCount)) &&
              decide (shuffledIds.indexOf u < A.civilianCount + A.undercoverCount)) :=
        (hperm.countP_eq _).symm
      have s5 : shuffledIds.countP
            (fun u => !(decide (shuffledIds.indexOf u < A.civilianCount)) &&
              decide (shuffledIds.indexOf u < A.civilianCount + A.undercoverCount)) =
          ((List.range shuffledIds.length).filter
            (fun j => !(decide (j < A.civilianCount)) &&
              decide (j < A.civilianCount + A.undercoverCount))).length :=
        countP_indexOf shuffledIds hnd
          (fun j => !(decide (j < A.civilianCount)) &&
            decide (j < A.civilianCount + A.undercoverCount))
      have s6 : ((List.range shuffledIds.length).filter
            (fun j => !(decide (j < A.civilianCount)) &&
              decide (j < A.civilianCount + A.undercoverCount))).length = A.undercoverCount := by
        rw [range_filter_band_length, hlen]
        omega
      exact ((((s1.trans s2).trans s3).trans s4).trans s5).trans s6
    · rw [hset]
      have s1 : ((g.startGame pairs coin pair shuffledIds shuffledOrder).2.players.filter
          (fun p => p.role == some Role.mrWhite)).length =
          (g.players.map (fun p =>
            if shuffledIds.indexOf p.userId < A.civilianCount then
              { p with role := some Role.civilian, word := some pair.civilian }
            else if shuffledIds.indexOf p.userId < A.civilianCount + A.undercoverCount then
              { p with role := some Role.undercover, word := some pair.undercover }
            else { p with role := some Role.mrWhite, word := none })).countP
            (fun p => p.role == some Role.mrWhite) := by
        rw [hplayers, ← List.countP_eq_length_filter]
      have s2 : (g.players.map (fun p =>
            if shuffledIds.indexOf p.userId < A.civilianCount then
              { p with role := some Role.civilian, word := some pair.civilian }
            else if shuffledIds.indexOf p.userId < A.civilianCount + A.undercoverCount then
              { p with role := some Role.undercover, word := some pair.undercover }
            else { p with role := some Role.mrWhite, word := none })).countP
            (fun p => p.role == some Role.mrWhite) =
          g.players.countP
            ((fun u => !(decide (shuffledIds.indexOf u <
              A.civilianCount + A.undercoverCount))) ∘ Player.userId) := by
        rw [List.countP_map]
        refine List.countP_congr ?_
        intro x _
        dsimp only [Function.comp]
        by_cases h1 : shuffledIds.indexOf x.userId < A.civilianCount
        · simp [h1, Nat.lt_of_lt_of_le h1 (Nat.le_add_right _ _)]
        · by_cases h2 : shuffledIds.indexOf x.userId < A.civilianCount + A.undercoverCount
          · simp [h1, h2]
          · simp [h1, h2]
      have s3 : g.players.countP
            ((fun u => !(decide (shuffledIds.indexOf u <
              A.civilianCount + A.undercoverCount))) ∘ Player.userId) =
          (g.players.map Player.userId).countP
            (fun u => !(decide (shuffledIds.indexOf u <
              A.civilianCount + A.undercoverCount))) :=
        (List.countP_map _ _ _).symm
      have s4 : (g.players.map Player.userId).countP
            (fun u => !(decide (shuffledIds.indexOf u <
              A.civilianCount + A.undercoverCount))) =
          shuffledIds.countP
            (fun u => !(decide (shuffledIds.indexOf u <
              A.civilianCount + A.undercoverCount))) :=
        (hperm.countP_eq _).symm
      have s5 : shuffledIds.countP
            (fun u => !(decide (shuffledIds.indexOf u <
              A.civilianCount + A.undercoverCount))) =
          ((List.range shuffledIds.length).filter
            (fun j => !(decide (j < A.civilianCount + A.undercoverCount)))).length :=
        countP_indexOf shuffledIds hnd
          (fun j => !(decide (j < A.civilianCount + A.undercoverCount)))
      have s6 : ((List.range shuffledIds.length).filter
            (fun j => !(decide (j < A.civilianCount + A.undercoverCount)))).length =
          A.mrWhiteCount := by
        rw [range_filter_not_lt_length, hlen]
        omega
      exact ((((s1.trans s2).trans s3).trans s4).trans s5).trans s6
    · intro q hq
      rw [hplayers] at hq
      obtain ⟨p, _, rfl⟩ := List.mem_map.mp hq
      by_cases h1 : shuffledIds.indexOf p.userId < A.civilianCount
      · left
        rw [if_pos h1]
        exact ⟨rfl, rfl⟩
      · by_cases h2 : shuffledIds.indexOf p.userId < A.civilianCount + A.undercoverCount
        · right; left
          rw [if_neg h1, if_pos h2]
          exact ⟨rfl, rfl⟩
        · right; right
          rw [if_neg h1, if_neg h2]
          exact ⟨rfl, rfl⟩

theorem c2_auto_distribution_witness :
    3 ≤ gC2w.players.length ∧
    ([(⟨"A", "B"⟩ : WordPair)] : List WordPair) ≠ [] ∧
    ([1, 2, 3] : List Nat).Perm (gC2w.players.map Player.userId) ∧
    ([1, 2, 3] : List Nat).Nodup ∧
    gC2w.settings.civilianCount = 0 ∧
    (gC2w.startGame [⟨"A", "B"⟩] true ⟨"A", "B"⟩ [1, 2, 3] [1, 2, 3]).1 = true ∧
    (gC2w.startGame [⟨"A", "B"⟩] true ⟨"A", "B"⟩ [1, 2, 3] [1, 2, 3]).2.roleCount Role.civilian =
      (gC2w.startGame [⟨"A", "B"⟩] true ⟨"A", "B"⟩ [1, 2, 3] [1, 2, 3]).2.settings.civilianCount ∧
    (gC2w.startGame [⟨"A", "B"⟩] true ⟨"A", "B"⟩ [1, 2, 3] [1, 2, 3]).2.settings.civilianCount = 2 :=
  have h := c2_auto_distribution gC2w [⟨"A", "B"⟩] true ⟨"A", "B"⟩ [1, 2, 3] [1, 2, 3]
    (by decide) (by decide) (by decide) (by decide)
    (gC2w.startGame [⟨"A", "B"⟩] true ⟨"A", "B"⟩ [1, 2, 3] [1, 2, 3]).1
    (gC2w.startGame [⟨"A", "B"⟩] true ⟨"A", "B"⟩ [1, 2, 3] [1, 2, 3]).2 rfl
  ⟨by decide, by decide, by decide, by decide, rfl, h.1,
    (h.2.2 rfl).2.2.2.2.2.1, ((h.2.2 rfl).2.1 rfl).1⟩
